import Mathlib

/-
Shallow embedding of the dexsearch / learn commands of
src/config/commands.js (Pokemon-Showdown fork).

The commands live in a chat-command table; each command reads the
read-only game-data facade `Tools` (species, moves, abilities, type
chart, learnset legality).  `Tools`, `Array.prototype.add` and the
global `string()` helper are repository code that is not part of
src/config/commands.js; where they are needed they are modelled from
the spec (each such definition carries a doc comment saying so).
Everything else is translated directly from the source.
-/

namespace Dex

/-- JS `String.prototype.toLowerCase` on the character list (ASCII
case mapping suffices for the identifiers involved). -/
def strLower (s : String) : String :=
  String.mk (s.toList.map Char.toLower)

/-- JS `String.prototype.trim`: strip leading and trailing
whitespace. -/
def strTrim (s : String) : String :=
  String.mk (((s.toList.dropWhile Char.isWhitespace).reverse.dropWhile
    Char.isWhitespace).reverse)

/-- JS string split at commas, keeping empty
pieces. -/
def splitCommaAux : List Char → List Char → List String
  | [], acc => [String.mk acc.reverse]
  | c :: rest, acc =>
    if c = ',' then String.mk acc.reverse :: splitCommaAux rest []
    else splitCommaAux rest (c :: acc)

def splitComma (s : String) : List String :=
  splitCommaAux s.toList []

/-- JS `str.substr(0, n)` — the first `n` characters. -/
def strTake (s : String) (n : Nat) : String :=
  String.mk (s.toList.take n)

/-- JS `str.substr(n)` — everything from character `n` on. -/
def strDrop (s : String) (n : Nat) : String :=
  String.mk (s.toList.drop n)

/-- Lexicographic code-unit comparison, the default JS
`Array.prototype.sort` string order. -/
def lexLe : List Char → List Char → Bool
  | [], _ => true
  | _ :: _, [] => false
  | a :: as, b :: bs =>
    if a.toNat < b.toNat then true
    else if b.toNat < a.toNat then false
    else lexLe as bs

def strLe (a b : String) : Bool := lexLe a.toList b.toList

/-- JS helper `toId` of the repository’s tools (not in src).
Modelled from the spec: lookups normalise a name to lowercase
alphanumerics before consulting the Dataset Facade
(`getMove(name) -> MoveRef | NotFound` etc.). -/
def toId (s : String) : String :=
  String.mk ((s.toList.map Char.toLower).filter fun c =>
    c.isDigit || (97 ≤ c.toNat && c.toNat ≤ 122))

/-- One species record of the Pokedex catalog (`SpeciesRecord` of the
spec; the fields are the ones src/config/commands.js reads:
`id`, `name`, `species`, `types`, `tier`, `color`, `abilities`, `gen`,
`maleOnlyHidden`). -/
structure Species where
  id : String
  name : String
  species : String
  types : List String
  tier : String
  color : String
  abilities : List String
  gen : Nat
  maleOnlyHidden : Bool
deriving DecidableEq, Repr

/-- The read-only Dataset Facade (`Tools.data` plus the lookup helpers).
Modelled from the spec: `getCatalog`, `getMove`, `getAbility`,
`getType` are external to src/config/commands.js; the catalog is the
`Pokedex` table, `moves`/`abilities` list the canonical display names
of the existing moves/abilities, `typechart` the keys of
`Tools.data.TypeChart`. -/
structure DexData where
  pokedex : List Species
  moves : List String
  abilities : List String
  typechart : List String
deriving DecidableEq, Repr

/-- Lookup `Tools.getMove(name)`: canonical move name when `name` resolves.
Modelled from the spec: `getMove(name) -> MoveRef | NotFound`;
resolution is by normalised id, and the returned ref stringifies to
the canonical name (the source stores `moves[target] = 1` with the ref
as key and later looks the key up again). -/
def getMove (dex : DexData) (s : String) : Option String :=
  dex.moves.find? fun m => toId m == toId s

/-- Lookup `Tools.getAbility(name)`.  Modelled from the spec:
`getAbility(name) -> AbilityRef | NotFound`, same conventions as
`getMove`. -/
def getAbility (dex : DexData) (s : String) : Option String :=
  dex.abilities.find? fun a => toId a == toId s

/-- Lookup `Tools.getTemplate(name)`: the Pokedex record whose id is
`toId name`.  Modelled from the spec: `getCatalog()` keyed by species
id. -/
def getTemplate (dex : DexData) (s : String) : Option Species :=
  dex.pokedex.find? fun sp => sp.id == toId s

/-- JS `parseInt` (radix unspecified) on an already produced token:
skip whitespace, optional sign, `0x` prefix switches to hexadecimal,
then the longest digit prefix; no digits gives NaN (`none`). -/
def jsParseInt (s : String) : Option Int :=
  let cs := s.toList.dropWhile fun c => c == ' ' || c == '\t' || c == '\n' || c == '\r'
  let (neg, cs) := match cs with
    | '-' :: rest => (true, rest)
    | '+' :: rest => (false, rest)
    | rest => (false, rest)
  let (base, cs) := match cs with
    | '0' :: 'x' :: rest => (16, rest)
    | '0' :: 'X' :: rest => (16, rest)
    | rest => (10, rest)
  let isDig : Char → Bool := fun c =>
    if base == 16 then c.isDigit || ('a' ≤ c && c ≤ 'f') || ('A' ≤ c && c ≤ 'F')
    else c.isDigit
  let digVal : Char → Nat := fun c =>
    if c.isDigit then c.toNat - 48
    else if 'a' ≤ c && c ≤ 'f' then c.toNat - 87
    else c.toNat - 55
  let digits := cs.takeWhile isDig
  if digits.isEmpty then none
  else
    let n : Nat := digits.foldl (fun acc c => acc * base + digVal c) 0
    some (if neg then -(n : Int) else (n : Int))

/-- A per-kind accumulator: the source keeps one JS object per kind
holding the member keys together with a `count` property
(`moves[target] = 1; moves.count++`).  Keys of a JS object are
deduplicated and iterate in insertion order; `count` counts the tokens
classified into the kind. -/
structure Cat (α : Type) where
  members : List α
  count : Nat
deriving DecidableEq, Repr

/-- Fresh empty accumulator (`var moves = {}` etc.). -/
def Cat.empty {α : Type} : Cat α := ⟨[], 0⟩

/-- JS object key insert plus count bump, `cat[x] = 1; cat.count++` (dedup, insertion
order kept) plus the count bump. -/
def Cat.insert {α : Type} [DecidableEq α] (c : Cat α) (x : α) : Cat α :=
  { members := if c.members.contains x then c.members else c.members ++ [x]
    count := c.count + 1 }

/-- The classifier/accumulator state of one dexsearch invocation:
the six per-kind objects, the `showAll` flag and the global `count` of
populated kinds. -/
structure QueryState where
  moves : Cat String
  tiers : Cat String
  colours : Cat String
  ability : Cat String
  gens : Cat Nat
  types : Cat String
  showAll : Bool
  catCount : Nat
deriving DecidableEq, Repr

def QueryState.init : QueryState :=
  ⟨Cat.empty, Cat.empty, Cat.empty, Cat.empty, Cat.empty, Cat.empty, false, 0⟩

/-- The allTiers keyword table (line 612). -/
def allTiers : List String :=
  ["uber", "ou", "uu", "ru", "nu", "lc", "cap", "bl", "bl2", "nfe", "limbo"]

/-- The allColours keyword table (line 613). -/
def allColours : List String :=
  ["green", "red", "blue", "white", "brown", "yellow", "purple", "pink", "gray", "black"]

/-- Index of the first occurrence of `pat` in `s` (`String.indexOf`),
as an index into the character list. -/
def indexOfSub (s pat : String) : Option Nat :=
  let ps := pat.toList
  let rec go : List Char → Nat → Option Nat
    | [], i => if ps == [] then some i else none
    | c :: rest, i =>
      if ps.isPrefixOf (c :: rest) then some i else go rest (i + 1)
  go s.toList 0

/-- JS `target.charAt(0).toUpperCase() + target.slice(1, idx)`:
capitalise the part of `t` before index `idx`. -/
def capBefore (t : String) (idx : Nat) : String :=
  match t.toList.take idx with
  | [] => ""
  | c :: rest => String.mk (c.toUpper :: rest)

/-- The move token block (lines 620–631). -/
def moveBranch (q : QueryState) (m : String) : Except String QueryState :=
  let q := if q.moves.count == 0 then { q with catCount := q.catCount + 1 } else q
  if q.moves.count == 4 then Except.error "Specify a maximum of 4 moves."
  else Except.ok { q with moves := q.moves.insert m }

/-- The ability token block (lines 633–645). -/
def abilityBranch (q : QueryState) (a : String) : Except String QueryState :=
  let q := if q.ability.count == 0 then { q with catCount := q.catCount + 1 } else q
  if q.ability.count == 1 then Except.error "Specify only one ability."
  else Except.ok { q with ability := q.ability.insert a }

/-- The tier token block (lines 648–656). -/
def tierBranch (q : QueryState) (t : String) : QueryState :=
  let q := if q.tiers.count == 0 then { q with catCount := q.catCount + 1 } else q
  { q with tiers := q.tiers.insert t }

/-- The colour token block (lines 657–665). -/
def colourBranch (q : QueryState) (t : String) : QueryState :=
  let q := if q.colours.count == 0 then { q with catCount := q.catCount + 1 } else q
  { q with colours := q.colours.insert t }

/-- The generation token block (lines 666–675). -/
def genBranch (q : QueryState) (n : Int) : QueryState :=
  let q := if q.gens.count == 0 then { q with catCount := q.catCount + 1 } else q
  { q with gens := q.gens.insert n.toNat }

/-- The `all` token block (lines 676–682). -/
def allBranch (broadcasting : Bool) (q : QueryState) : Except String QueryState :=
  if broadcasting then
    Except.error "A search with the parameter \"all\" cannot be broadcast."
  else Except.ok { q with showAll := true }

/-- The type token block (lines 683–696): a token whose capitalised
the ‘ type’ prefix of which is not a `TypeChart` key falls through SILENTLY
(neither `continue` nor `return` fires for it in the source). -/
def typeBranch (dex : DexData) (q : QueryState) (cap : String) : Except String QueryState :=
  if dex.typechart.contains cap then
    if q.types.count == 2 then Except.error "Specify a maximum of two types."
    else
      let q := if q.types.count == 0 then { q with catCount := q.catCount + 1 } else q
      Except.ok { q with types := q.types.insert cap }
  else Except.ok q

/-- The unrecognized-token abort (line 698). -/
def unrecognizedMsg (tok : String) : String :=
  "\"" ++ strTrim tok ++ "\" could not be found in any of the search categories."

/-- Classify one comma token (lines 618–700).  The fixed order of the
source: move lookup, ability lookup, tier keyword, colour keyword,
`parseInt` in (0,6), literal `all`, ‘ type’ substring → type lookup;
every unmatched token without a ‘ type’ substring aborts. -/
def classifyToken (dex : DexData) (broadcasting : Bool) (q : QueryState)
    (tok : String) : Except String QueryState :=
  match getMove dex tok with
  | some m => moveBranch q m
  | none =>
  match getAbility dex tok with
  | some a => abilityBranch q a
  | none =>
  let t := strLower (strTrim tok)
  if allTiers.contains t then Except.ok (tierBranch q t)
  else if allColours.contains t then Except.ok (colourBranch q t)
  else
  let tail : Except String QueryState :=
    if t == "all" then allBranch broadcasting q
    else
      match indexOfSub t " type" with
      | some idx => typeBranch dex q (capBefore t idx)
      | none => Except.error (unrecognizedMsg tok)
  match jsParseInt t with
  | some n => if 0 < n ∧ n < 6 then Except.ok (genBranch q n) else tail
  | none => tail

/-- Number of kinds whose accumulator holds a positive count, listed
in the priority order of the evaluation loop. -/
def kindsPopulated (q : QueryState) : Nat :=
  (if q.types.count > 0 then 1 else 0) + (if q.tiers.count > 0 then 1 else 0) +
  (if q.ability.count > 0 then 1 else 0) + (if q.colours.count > 0 then 1 else 0) +
  (if q.moves.count > 0 then 1 else 0) + (if q.gens.count > 0 then 1 else 0)

/-- Book-keeping facts one accumulator object satisfies throughout
classification: deduplicated keys, a count at least the number of
keys, and a count that is positive exactly when a key exists. -/
def catOk {α : Type} [DecidableEq α] (c : Cat α) : Prop :=
  c.members.Nodup ∧ c.members.length ≤ c.count ∧ (c.members = [] ↔ c.count = 0)

/-- The classification invariant: every accumulator is well kept, the
global `count` equals the number of populated kinds, and every stored
move key is a canonical move name of the dataset. -/
def Inv (dex : DexData) (q : QueryState) : Prop :=
  catOk q.moves ∧ catOk q.tiers ∧ catOk q.colours ∧ catOk q.ability ∧
  catOk q.gens ∧ catOk q.types ∧
  q.catCount = kindsPopulated q ∧
  (∀ m ∈ q.moves.members, m ∈ dex.moves)

/-- The token loop `for (var i in targets)`. -/
def runTokens (dex : DexData) (broadcasting : Bool) :
    QueryState → List String → Except String QueryState
  | q, [] => Except.ok q
  | q, t :: ts =>
    match classifyToken dex broadcasting q t with
    | Except.error e => Except.error e
    | Except.ok q' => runTokens dex broadcasting q' ts

/-- The full classification phase: split on commas, classify every
token, then the `showAll && count === 0` check (line 702). -/
def runClassifier (dex : DexData) (broadcasting : Bool) (query : String) :
    Except String QueryState :=
  match runTokens dex broadcasting QueryState.init (splitComma query) with
  | Except.error e => Except.error e
  | Except.ok q =>
    if q.showAll && q.catCount == 0 then
      Except.error "No search parameters other than \"all\" were found.\nTry \"/help dexsearch\" for more information on this command."
    else Except.ok q

/-- JS `tempResults.add(x)` / `results.add(x)`.  Modelled from the spec:
`Array.prototype.add` is repository code outside src/config/commands.js;
the spec’s `ResultSet` is "a deduplicated set of SpeciesRecord
references", so `add` appends an element not already present. -/
def addUniq {α : Type} [DecidableEq α] (l : List α) (x : α) : List α :=
  if l.contains x then l else l ++ [x]

/-- JS `k in obj` where `obj` is one of the per-kind accumulator
objects: the keys are the members plus the `count` property itself
(the object doubles as member set and counter). -/
def jsIn (k : String) (c : Cat String) : Bool :=
  c.members.contains k || k == "count"

/-- JS property key for a type slot read `pokemon.types[i]`: a missing
slot is `undefined`, which coerces to the key `"undefined"`. -/
def typeSlotKey (sl : Option String) : String :=
  match sl with
  | some t => t
  | none => "undefined"

/-- Copy `results` into a fresh `tempResults` via repeated `add`
(line 715). -/
def copyList (l : List Species) : List Species :=
  l.foldl addUniq []

/-- Generic “filter by predicate via `results.add`” loop shared by the
category blocks and the catalog seeding. -/
def filterAdd (p : Species → Bool) (l : List Species) : List Species :=
  l.foldl (fun acc sp => if p sp then addUniq acc sp else acc) []

/-- The initial working set (lines 707–713): every Pokedex record with
the tier is not Illegal and (the tier is not CAP or the key cap is in tiers). -/
def initialSet (dex : DexData) (q : QueryState) : List Species :=
  filterAdd (fun sp => sp.tier != "Illegal" && (sp.tier != "CAP" || jsIn "cap" q.tiers))
    dex.pokedex

/-- The type category test (lines 719–726): one requested type checks
either slot with OR, otherwise both slots must be keys of the
requested set. -/
def matchType (c : Cat String) (sp : Species) : Bool :=
  if c.count == 1 then
    jsIn (typeSlotKey (sp.types.get? 0)) c || jsIn (typeSlotKey (sp.types.get? 1)) c
  else
    jsIn (typeSlotKey (sp.types.get? 0)) c && jsIn (typeSlotKey (sp.types.get? 1)) c

/-- The tier category test (line 733). -/
def matchTier (c : Cat String) (sp : Species) : Bool :=
  jsIn (strLower sp.tier) c

/-- The colour category test (line 751). -/
def matchColour (c : Cat String) (sp : Species) : Bool :=
  jsIn (strLower sp.color) c

/-- Key under which a species ability slot is looked up in the ability
object (line 742): `Tools.getAbility(name)` stringifies to the
canonical name when it resolves and to the raw name otherwise.
Modelled from the spec for the stringification of `AbilityRef`. -/
def abilityKey (dex : DexData) (n : String) : String :=
  match getAbility dex n with
  | some a => a
  | none => n

/-- The ability category block (lines 739–747): one `add` per matching
ability slot. -/
def abilityFilter (dex : DexData) (c : Cat String) (l : List Species) : List Species :=
  l.foldl
    (fun acc sp =>
      sp.abilities.foldl
        (fun acc2 a => if jsIn (abilityKey dex a) c then addUniq acc2 sp else acc2)
        acc) []

/-- The generation category test (line 779): `pokemon.gen in gens`. -/
def matchGen (c : Cat Nat) (sp : Species) : Bool :=
  c.members.contains sp.gen

/-- The `Tools.getTemplate` result for an unknown id: a stub record
carrying only the id.  Modelled from the spec’s found/not-found lookup
results. -/
def dummySpecies (id : String) : Species :=
  ⟨id, "", "", [], "", "", [], 0, false⟩

/-- Re-fetch `Tools.getTemplate(tempResults[mon].id)` in the move block
(line 762), with the not-found stub. -/
def refetch (dex : DexData) (sp : Species) : Species :=
  match getTemplate dex sp.id with
  | some t => t
  | none => dummySpecies (toId sp.id)

/-- The per-species inner move loop (lines 761–770): iterate the
requested moves in insertion order against a fresh `lsetData`,
aborting the whole command when a stored key no longer resolves,
breaking at the first legality problem.  The legality engine
(`Tools.checkLearnset`) is external; it is passed in as `ckl`
together with the fresh per-species state `s0`.  Returns the final
value of `problem`. -/
def monMoves {σ : Type} (dex : DexData) (ckl : String → Species → σ → Option String × σ)
    (t : Species) : List String → σ → Except String (Option String)
  | [], _ => Except.ok none
  | m :: ms, s =>
    match getMove dex m with
    | none => Except.error ("\"" ++ m ++ "\" is not a known move.")
    | some mv =>
      match ckl mv t s with
      | (some p, _) => Except.ok (some p)
      | (none, s') => monMoves dex ckl t ms s'

/-- The move category block (lines 757–775): keep the species whose
move loop ends with no problem. -/
def movesFilter {σ : Type} (dex : DexData) (ckl : String → Species → σ → Option String × σ)
    (s0 : σ) (members : List String) : List Species → List Species → Except String (List Species)
  | acc, [] => Except.ok acc
  | acc, sp :: rest =>
    match monMoves dex ckl (refetch dex sp) members s0 with
    | Except.error e => Except.error e
    | Except.ok (some _) => movesFilter dex ckl s0 members acc rest
    | Except.ok none => movesFilter dex ckl s0 members (addUniq acc sp) rest

/-- Zero a kind’s `count` property after its block ran
(`types.count = 0` etc.). -/
def Cat.zero {α : Type} (c : Cat α) : Cat α := { c with count := 0 }

/-- The evaluation loop `while (count > 0)` (lines 704–784): each pass
decrements `count`, copies the previous results (or seeds from the
catalog on the first pass, when `results` is still undefined), and
runs the first category block whose `count` is positive; a pass in
which no block fires leaves `results = []`. -/
def evalLoop {σ : Type} (dex : DexData) (ckl : String → Species → σ → Option String × σ)
    (s0 : σ) : Nat → Option (List Species) → QueryState → Except String (List Species)
  | 0, results, _ => Except.ok (results.getD [])
  | c + 1, results, q =>
    let temp := match results with
      | none => initialSet dex q
      | some rs => copyList rs
    if q.types.count > 0 then
      evalLoop dex ckl s0 c (some (filterAdd (matchType q.types) temp)) { q with types := q.types.zero }
    else if q.tiers.count > 0 then
      evalLoop dex ckl s0 c (some (filterAdd (matchTier q.tiers) temp)) { q with tiers := q.tiers.zero }
    else if q.ability.count > 0 then
      evalLoop dex ckl s0 c (some (abilityFilter dex q.ability temp)) { q with ability := q.ability.zero }
    else if q.colours.count > 0 then
      evalLoop dex ckl s0 c (some (filterAdd (matchColour q.colours) temp)) { q with colours := q.colours.zero }
    else if q.moves.count > 0 then
      match movesFilter dex ckl s0 q.moves.members [] temp with
      | Except.error e => Except.error e
      | Except.ok r => evalLoop dex ckl s0 c (some r) { q with moves := q.moves.zero }
    else if q.gens.count > 0 then
      evalLoop dex ckl s0 c (some (filterAdd (matchGen q.gens) temp)) { q with gens := q.gens.zero }
    else
      evalLoop dex ckl s0 c (some []) q

/-- Comma-join of the name list (line 790). -/
def joinComma (l : List String) : String := String.intercalate ", " l

/-- The truncation trailer (line 796); the global `string()` helper
(not in src) is modelled from the spec as decimal rendering of the
hidden count. -/
def moreTrailer (n : Nat) : String :=
  ", and " ++ toString n ++
    " more. Redo the search with \"all\" as a search parameter to show all results."

/-- The result formatter (lines 786–801).  The pseudo-random
`results.sort(...Math.random()...)` shuffle is modelled from the spec
(§9: inject the random source) as the permutation argument `perm`
applied to the name list. -/
def formatResults (showAll : Bool) (perm : List String → List String)
    (results : List Species) : String :=
  let names := results.map fun sp => sp.species
  if results.length > 0 then
    if showAll || names.length ≤ 10 then joinComma names
    else joinComma ((perm names).take 10) ++ moreTrailer (names.length - 10)
  else "No Pokémon found."

/-- Classification plus evaluation, without the display sampling: the
deterministic part of a dexsearch invocation. -/
def dexsearchCore {σ : Type} (dex : DexData) (ckl : String → Species → σ → Option String × σ)
    (s0 : σ) (broadcasting : Bool) (query : String) : Except String (Bool × List Species) :=
  match runClassifier dex broadcasting query with
  | Except.error e => Except.error e
  | Except.ok q =>
    match evalLoop dex ckl s0 q.catCount none q with
    | Except.error e => Except.error e
    | Except.ok res => Except.ok (q.showAll, res)

/-- The whole `dexsearch` command (lines 606–802): empty input goes to
the help text, otherwise classification, evaluation and formatting;
every abort is the reply carrying its message. -/
def dexsearch {σ : Type} (dex : DexData) (ckl : String → Species → σ → Option String × σ)
    (s0 : σ) (broadcasting : Bool) (perm : List String → List String)
    (query : String) : String :=
  if query == "" then "/help dexsearch"
  else
    match dexsearchCore dex ckl s0 broadcasting query with
    | Except.error e => e
    | Except.ok (sa, res) => formatResults sa perm res

/-- The learnset state threaded through `Tools.checkLearnset`
(`var lsetData = {set:{}}`): the fields the learn formatter reads.
`sources` is absent (`undefined`) until the engine sets it; JS
truthiness makes an absent `sources` and a zero `sourcesBefore`
falsy.  The `set.level` / `format` fields of the `learn5` / `g6learn`
variants live inside the external engine and are not read by the
formatter, so they are folded into the engine argument. -/
structure LsetData where
  sources : Option (List String)
  sourcesBefore : Nat
deriving DecidableEq, Repr

def lsetInit : LsetData := ⟨none, 0⟩

/-- `var sourceNames = {E:"egg",S:"event",D:"dream world"}` (line 840);
an unknown method key reads `undefined`. -/
def methodName (c : String) : String :=
  if c == "E" then "egg"
  else if c == "S" then "event"
  else if c == "D" then "dream world"
  else "undefined"

/-- Insertion step of the lexicographic sort. -/
def insertSorted (x : String) : List String → List String
  | [] => [x]
  | y :: ys => if strLe x y then x :: y :: ys else y :: insertSorted x ys

/-- `lsetData.sources.sort()` — JS default sort compares the strings
lexicographically. -/
def jsSort (l : List String) : List String := l.foldr insertSorted []

/-- Accumulator of the source-tag rendering loop (lines 844–860):
the buffer, `prevSourceType` and `prevSourceCount`. -/
structure SrcState where
  buffer : String
  prevType : Option String
  prevCount : Int
deriving DecidableEq, Repr

/-- One iteration of the source-tag loop (lines 846–860): a tag whose
first two characters repeat the previous run appends its detail while
fewer than 3 continuation details were printed (always, in `learnall`
mode), appends a comma plus ellipsis at the 4th, and is dropped afterwards; a tag
starting a new run opens a `<li>` with its generation digit and
acquisition method. -/
def sourceStep (all : Bool) (template : Species) (st : SrcState) (source : String) : SrcState :=
  let stype := strTake source 2
  if st.prevType == some stype then
    let buffer :=
      if st.prevCount < 0 then st.buffer ++ ": " ++ strDrop source 2
      else if all || st.prevCount < 3 then st.buffer ++ ", " ++ strDrop source 2
      else if st.prevCount == 3 then st.buffer ++ ", ..."
      else st.buffer
    { buffer := buffer, prevType := st.prevType, prevCount := st.prevCount + 1 }
  else
    let buffer := st.buffer ++ "<li>gen " ++ strTake source 1 ++ " " ++ methodName (strTake (strDrop source 1) 1)
    let buffer :=
      if stype == "5E" && template.maleOnlyHidden then buffer ++ " (cannot have hidden ability)"
      else buffer
    let buffer := if strDrop source 2 ≠ "" then buffer ++ ": " ++ strDrop source 2 else buffer
    { buffer := buffer, prevType := some stype,
      prevCount := if strDrop source 2 ≠ "" then 0 else -1 }

/-- The source list portion of the learn reply. -/
def renderSources (all : Bool) (template : Species) (buffer : String)
    (srcs : List String) : String :=
  ((jsSort srcs).foldl (sourceStep all template) ⟨buffer, none, 0⟩).buffer

/-- The move loop of `learn` (lines 830–837): look each move up in
order, abort on an unknown name, check legality with the threaded
`lsetData`, break at the first problem.  Returns the final `problem`,
the last `move` looked up, and the final `lsetData`. -/
def learnLoop (dex : DexData) (ckl : String → Species → LsetData → Option String × LsetData)
    (t : Species) (ms0 : List String) (s : LsetData) :
    Except String (Option String × String × LsetData) :=
  match ms0 with
  | [] => Except.ok (none, "", s)
  | m :: ms =>
    match getMove dex m with
    | none => Except.error ("Move \"" ++ toId m ++ "\" not found.")
    | some mv =>
      match ckl mv t s with
      | (some p, s') => Except.ok (some p, mv, s')
      | (none, s') =>
        match ms with
        | [] => Except.ok (none, mv, s')
        | _ :: _ => learnLoop dex ckl t ms s'

/-- The whole `learn` command (lines 808–866); `all` is the
the learnall-command flag. -/
def learn (dex : DexData) (ckl : String → Species → LsetData → Option String × LsetData)
    (all : Bool) (target : String) : String :=
  if target == "" then "/help learn"
  else
    let targets := splitComma target
    match getTemplate dex (targets.headD "") with
    | none => "Pokemon \"" ++ toId (targets.headD "") ++ "\" not found."
    | some template =>
      if targets.length < 2 then "You must specify at least one move."
      else
        match learnLoop dex ckl template (targets.drop 1) lsetInit with
        | Except.error e => e
        | Except.ok (problem, lastName, ls) =>
          let buffer := template.name ++
            (if problem.isSome then " <span class=\"message-learn-cannotlearn\">can\x27t</span> learn "
             else " <span class=\"message-learn-canlearn\">can</span> learn ") ++
            (if targets.length > 2 then "these moves" else lastName)
          if problem.isSome then buffer
          else
            let buffer :=
              if ls.sources.isSome || ls.sourcesBefore ≠ 0 then
                buffer ++ " only when obtained from:<ul class=\"message-learn-list\">"
              else buffer
            let buffer :=
              match ls.sources with
              | some srcs => renderSources all template buffer srcs
              | none => buffer
            let buffer :=
              if ls.sourcesBefore ≠ 0 then
                buffer ++ "<li>any generation before " ++ toString (ls.sourcesBefore + 1)
              else buffer
            buffer ++ "</ul>"

/-- No attribute of the catalog collides with the `count` property
key that the accumulator objects carry alongside their members (true
of the real game data, where tiers, colours and ability names never
spell `count`). -/
def CleanDex (dex : DexData) : Bool :=
  dex.pokedex.all fun sp =>
    strLower sp.tier ≠ "count" && strLower sp.color ≠ "count" &&
      sp.abilities.all fun a => abilityKey dex a ≠ "count"

/-- The per-category tests exactly as the evaluation loop runs them,
each guarded by its kind being populated. -/
def srcMatches {σ : Type} (dex : DexData) (ckl : String → Species → σ → Option String × σ)
    (s0 : σ) (q : QueryState) (sp : Species) : Prop :=
  (q.types.count > 0 → matchType q.types sp = true) ∧
  (q.tiers.count > 0 → matchTier q.tiers sp = true) ∧
  (q.ability.count > 0 → (sp.abilities.any fun a => jsIn (abilityKey dex a) q.ability) = true) ∧
  (q.colours.count > 0 → matchColour q.colours sp = true) ∧
  (q.moves.count > 0 → monMoves dex ckl (refetch dex sp) q.moves.members s0 = Except.ok none) ∧
  (q.gens.count > 0 → matchGen q.gens sp = true)

/-- The AND of all populated categories with OR over each category’s
member set (type keeps its noted two-type special case, the move
category its all-moves-legal conjunction). -/
def SatisfiesAll {σ : Type} (dex : DexData) (ckl : String → Species → σ → Option String × σ)
    (s0 : σ) (q : QueryState) (sp : Species) : Prop :=
  (q.types.count > 0 → matchType q.types sp = true) ∧
  (q.tiers.count > 0 → strLower sp.tier ∈ q.tiers.members) ∧
  (q.ability.count > 0 → ∃ a ∈ sp.abilities, abilityKey dex a ∈ q.ability.members) ∧
  (q.colours.count > 0 → strLower sp.color ∈ q.colours.members) ∧
  (q.moves.count > 0 → monMoves dex ckl (refetch dex sp) q.moves.members s0 = Except.ok none) ∧
  (q.gens.count > 0 → sp.gen ∈ q.gens.members)

/-- Rendering of a deterministic core outcome under a given display
permutation: the factor of `dexsearch` that the pseudo-random source
can influence. -/
def renderReply (perm : List String → List String)
    (core : Except String (Bool × List Species)) : String :=
  match core with
  | Except.error e => e
  | Except.ok (sa, res) => formatResults sa perm res

/-- Closed form of the buffer text the source-tag loop appends for the
continuation entries of one run, given the value of
`prevSourceCount` on entry. -/
def contRender (all : Bool) : Int → List String → String
  | _, [] => ""
  | c, d :: rest =>
    (if c < 0 then ": " ++ d
     else if all || c < 3 then ", " ++ d
     else if c == 3 then ", ..."
     else "") ++ contRender all (c + 1) rest

/-- Right-fold comma rendering of a run’s continuation details
(`", " ++ d` per detail), used to state the truncation contract. -/
def commaJoinAll (l : List String) : String :=
  l.foldr (fun d acc => ", " ++ d ++ acc) ""

/-- The suffix the learn reply appends after the can-learn phrase:
the “only when obtained from” header when sources exist, the rendered
source list, the `sourcesBefore` line and the closing `</ul>`
(lines 840–863 relative to an empty buffer). -/
def sourcesTail (all : Bool) (tpl : Species) (ls : LsetData) : String :=
  let buffer := ""
  let buffer :=
    if ls.sources.isSome || ls.sourcesBefore ≠ 0 then
      buffer ++ " only when obtained from:<ul class=\"message-learn-list\">"
    else buffer
  let buffer :=
    match ls.sources with
    | some srcs => renderSources all tpl buffer srcs
    | none => buffer
  let buffer :=
    if ls.sourcesBefore ≠ 0 then
      buffer ++ "<li>any generation before " ++ toString (ls.sourcesBefore + 1)
    else buffer
  buffer ++ "</ul>"

/-! ## Concrete data for witnesses and counterexamples -/

def spW1 : Species :=
  ⟨"charizard", "Charizard", "Charizard", ["Fire", "Flying"], "OU", "Red", ["Blaze"], 1, false⟩

def spW2 : Species :=
  ⟨"squirtle", "Squirtle", "Squirtle", ["Water"], "LC", "Blue", ["Torrent"], 1, false⟩

def spW3 : Species :=
  ⟨"moltres", "Moltres", "Moltres", ["Fire", "Flying"], "Illegal", "Yellow", ["Pressure"], 1, false⟩

def spW4 : Species :=
  ⟨"capmon", "Capmon", "Capmon", ["Fire"], "CAP", "Red", ["Blaze"], 5, false⟩

def dexW : DexData :=
  ⟨[spW1, spW2, spW3, spW4], ["Tackle", "Growl", "Surf"],
    ["Blaze", "Torrent", "Pressure"], ["Fire", "Water", "Flying"]⟩

/-- A sample legality engine for witnesses: `Surf` is only learnable
by Squirtle, all other moves by everyone. -/
def cklW : String → Species → Unit → Option String × Unit :=
  fun m sp _ => (if m = "Surf" ∧ sp.id ≠ "squirtle" then some "cant" else none, ())

def qW : QueryState :=
  ⟨Cat.empty, ⟨["ou"], 1⟩, Cat.empty, Cat.empty, Cat.empty, ⟨["Fire"], 1⟩, false, 2⟩

/-- A sample legality engine over the learn state: `Surf` is only
learnable by Squirtle, everything else is learnable and leaves the
state unchanged. -/
def cklL : String → Species → LsetData → Option String × LsetData :=
  fun m sp s => (if m = "Surf" ∧ sp.id ≠ "squirtle" then some "cant" else none, s)

def resultsW : List Species :=
  (List.range 23).map fun i => ⟨toString i, toString i, toString i, [], "OU", "Red", [], 1, false⟩

def qSurf : QueryState :=
  ⟨⟨["Surf"], 1⟩, ⟨["ou"], 1⟩, Cat.empty, Cat.empty, Cat.empty, Cat.empty, false, 2⟩

/-! ## Lemmas: classifier book-keeping -/

theorem catOk_empty {α : Type} [DecidableEq α] : catOk (Cat.empty : Cat α) := by
  refine ⟨List.nodup_nil, by simp [Cat.empty], by simp [Cat.empty]⟩

theorem catOk_insert {α : Type} [DecidableEq α] {c : Cat α} (h : catOk c) (x : α) :
    catOk (c.insert x) := by
  obtain ⟨h1, h2, h3⟩ := h
  unfold Cat.insert catOk
  by_cases hc : c.members.contains x
  · simp only [hc, if_true]
    refine ⟨h1, by omega, ?_, by omega⟩
    intro he
    rw [he] at hc
    simp at hc
  · simp only [hc, if_false, Bool.false_eq_true]
    have hx : x ∉ c.members := by
      intro hm
      exact absurd (by simpa using hm) (by simpa using hc)
    refine ⟨by simp [List.nodup_append, h1, hx], by simp; omega, by simp, by omega⟩

theorem catOk_insert_pos {α : Type} [DecidableEq α] (c : Cat α) (x : α) :
    (c.insert x).count > 0 := by
  simp [Cat.insert]

theorem getMove_mem {dex : DexData} {tok m : String} (h : getMove dex tok = some m) :
    m ∈ dex.moves :=
  List.mem_of_find?_eq_some h

theorem getMove_isSome_of_mem {dex : DexData} {m : String} (h : m ∈ dex.moves) :
    (getMove dex m).isSome := by
  unfold getMove
  rw [List.find?_isSome]
  exact ⟨m, h, by simp⟩

theorem mem_insert_members {α : Type} [DecidableEq α] {c : Cat α} {x y : α}
    (h : y ∈ (c.insert x).members) : y ∈ c.members ∨ y = x := by
  unfold Cat.insert at h
  by_cases hc : c.members.contains x
  · simp only [hc, if_true] at h
    exact Or.inl h
  · simp only [hc] at h
    rcases List.mem_append.1 h with h' | h'
    · exact Or.inl h'
    · exact Or.inr (by simpa using h')

theorem insert_count {α : Type} [DecidableEq α] (c : Cat α) (x : α) :
    (c.insert x).count = c.count + 1 := rfl

theorem inv_moveBranch {dex : DexData} {q q' : QueryState} {m : String}
    (h : moveBranch q m = Except.ok q') (hm : m ∈ dex.moves) (hinv : Inv dex q) :
    Inv dex q' := by
  obtain ⟨mv, ti, co, ab, ge, ty, sa, cc⟩ := q
  obtain ⟨i1, i2, i3, i4, i5, i6, i7, i8⟩ := hinv
  simp only [Inv, kindsPopulated] at i7 ⊢
  unfold moveBranch at h
  have hmem : ∀ x ∈ (mv.insert m).members, x ∈ dex.moves := by
    intro x hx
    rcases mem_insert_members hx with h' | h'
    · exact i8 x h'
    · exact h' ▸ hm
  by_cases h0 : mv.count = 0
  · simp [h0] at h
    subst h
    refine ⟨catOk_insert i1 m, i2, i3, i4, i5, i6, ?_, hmem⟩
    simp only [h0, gt_iff_lt, Nat.lt_irrefl, if_false] at i7
    simp [Cat.insert]
    omega
  · have hpos : 0 < mv.count := Nat.pos_of_ne_zero h0
    by_cases h4 : mv.count = 4
    · simp [h0, h4] at h
    · simp [h0, h4] at h
      subst h
      refine ⟨catOk_insert i1 m, i2, i3, i4, i5, i6, ?_, hmem⟩
      simp only [hpos, if_pos, gt_iff_lt] at i7
      simp [Cat.insert, hpos]
      omega

theorem inv_abilityBranch {dex : DexData} {q q' : QueryState} {a : String}
    (h : abilityBranch q a = Except.ok q') (hinv : Inv dex q) : Inv dex q' := by
  obtain ⟨mv, ti, co, ab, ge, ty, sa, cc⟩ := q
  obtain ⟨i1, i2, i3, i4, i5, i6, i7, i8⟩ := hinv
  simp only [Inv, kindsPopulated] at i7 ⊢
  unfold abilityBranch at h
  by_cases h0 : ab.count = 0
  · simp [h0] at h
    subst h
    refine ⟨i1, i2, i3, catOk_insert i4 a, i5, i6, ?_, i8⟩
    simp only [h0, gt_iff_lt, Nat.lt_irrefl, if_false] at i7
    simp [Cat.insert]
    omega
  · have hpos : 0 < ab.count := Nat.pos_of_ne_zero h0
    by_cases h1 : ab.count = 1
    · simp [h0, h1] at h
    · simp [h0, h1] at h
      subst h
      refine ⟨i1, i2, i3, catOk_insert i4 a, i5, i6, ?_, i8⟩
      simp only [hpos, if_pos, gt_iff_lt] at i7
      simp [Cat.insert, hpos]
      omega

theorem inv_tierBranch {dex : DexData} {q : QueryState} {t : String}
    (hinv : Inv dex q) : Inv dex (tierBranch q t) := by
  obtain ⟨mv, ti, co, ab, ge, ty, sa, cc⟩ := q
  obtain ⟨i1, i2, i3, i4, i5, i6, i7, i8⟩ := hinv
  simp only [Inv, kindsPopulated] at i7 ⊢
  unfold tierBranch
  by_cases h0 : ti.count = 0
  · simp [h0]
    refine ⟨i1, catOk_insert i2 t, i3, i4, i5, i6, ?_, i8⟩
    simp only [h0, gt_iff_lt, Nat.lt_irrefl, if_false] at i7
    simp [Cat.insert]
    omega
  · have hpos : 0 < ti.count := Nat.pos_of_ne_zero h0
    simp [h0]
    refine ⟨i1, catOk_insert i2 t, i3, i4, i5, i6, ?_, i8⟩
    simp only [hpos, if_pos, gt_iff_lt] at i7
    simp [Cat.insert, hpos]
    omega

theorem inv_colourBranch {dex : DexData} {q : QueryState} {t : String}
    (hinv : Inv dex q) : Inv dex (colourBranch q t) := by
  obtain ⟨mv, ti, co, ab, ge, ty, sa, cc⟩ := q
  obtain ⟨i1, i2, i3, i4, i5, i6, i7, i8⟩ := hinv
  simp only [Inv, kindsPopulated] at i7 ⊢
  unfold colourBranch
  by_cases h0 : co.count = 0
  · simp [h0]
    refine ⟨i1, i2, catOk_insert i3 t, i4, i5, i6, ?_, i8⟩
    simp only [h0, gt_iff_lt, Nat.lt_irrefl, if_false] at i7
    simp [Cat.insert]
    omega
  · have hpos : 0 < co.count := Nat.pos_of_ne_zero h0
    simp [h0]
    refine ⟨i1, i2, catOk_insert i3 t, i4, i5, i6, ?_, i8⟩
    simp only [hpos, if_pos, gt_iff_lt] at i7
    simp [Cat.insert, hpos]
    omega

theorem inv_genBranch {dex : DexData} {q : QueryState} {n : Int}
    (hinv : Inv dex q) : Inv dex (genBranch q n) := by
  obtain ⟨mv, ti, co, ab, ge, ty, sa, cc⟩ := q
  obtain ⟨i1, i2, i3, i4, i5, i6, i7, i8⟩ := hinv
  simp only [Inv, kindsPopulated] at i7 ⊢
  unfold genBranch
  by_cases h0 : ge.count = 0
  · simp [h0]
    refine ⟨i1, i2, i3, i4, catOk_insert i5 n.toNat, i6, ?_, i8⟩
    simp only [h0, gt_iff_lt, Nat.lt_irrefl, if_false] at i7
    simp [Cat.insert]
    omega
  · have hpos : 0 < ge.count := Nat.pos_of_ne_zero h0
    simp [h0]
    refine ⟨i1, i2, i3, i4, catOk_insert i5 n.toNat, i6, ?_, i8⟩
    simp only [hpos, if_pos, gt_iff_lt] at i7
    simp [Cat.insert, hpos]
    omega

theorem inv_allBranch {dex : DexData} {q q' : QueryState} {b : Bool}
    (h : allBranch b q = Except.ok q') (hinv : Inv dex q) : Inv dex q' := by
  obtain ⟨mv, ti, co, ab, ge, ty, sa, cc⟩ := q
  obtain ⟨i1, i2, i3, i4, i5, i6, i7, i8⟩ := hinv
  unfold allBranch at h
  cases b
  · simp at h
    subst h
    exact ⟨i1, i2, i3, i4, i5, i6, i7, i8⟩
  · simp at h

theorem inv_typeBranch {dex : DexData} {q q' : QueryState} {cap : String}
    (h : typeBranch dex q cap = Except.ok q') (hinv : Inv dex q) : Inv dex q' := by
  obtain ⟨mv, ti, co, ab, ge, ty, sa, cc⟩ := q
  obtain ⟨i1, i2, i3, i4, i5, i6, i7, i8⟩ := hinv
  unfold typeBranch at h
  by_cases hc : cap ∈ dex.typechart
  case neg =>
    simp [hc] at h
    subst h
    exact ⟨i1, i2, i3, i4, i5, i6, i7, i8⟩
  case pos =>
  simp only [Inv, kindsPopulated] at i7 ⊢
  by_cases h2 : ty.count = 2
  · simp [hc, h2] at h
  · by_cases h0 : ty.count = 0
    · simp [hc, h0, h2] at h
      subst h
      refine ⟨i1, i2, i3, i4, i5, catOk_insert i6 cap, ?_, i8⟩
      simp only [h0, gt_iff_lt, Nat.lt_irrefl, if_false] at i7
      simp [Cat.insert]
      omega
    · have hpos : 0 < ty.count := Nat.pos_of_ne_zero h0
      simp [hc, h0, h2] at h
      subst h
      refine ⟨i1, i2, i3, i4, i5, catOk_insert i6 cap, ?_, i8⟩
      simp only [hpos, if_pos, gt_iff_lt] at i7
      simp [Cat.insert, hpos]
      omega

theorem inv_classifyToken {dex : DexData} {b : Bool} {q q' : QueryState} {tok : String}
    (h : classifyToken dex b q tok = Except.ok q') (hinv : Inv dex q) : Inv dex q' := by
  unfold classifyToken at h
  rcases hgm : getMove dex tok with _ | m
  case some =>
    rw [hgm] at h
    exact inv_moveBranch h (getMove_mem hgm) hinv
  case none =>
  rw [hgm] at h
  rcases hga : getAbility dex tok with _ | a
  case some =>
    rw [hga] at h
    exact inv_abilityBranch h hinv
  case none =>
  rw [hga] at h
  by_cases hti : strLower (strTrim tok) ∈ allTiers
  · simp only [] at h
    simp [hti] at h
    subst h
    exact inv_tierBranch hinv
  · by_cases hco : strLower (strTrim tok) ∈ allColours
    · simp only [] at h
      simp [hti, hco] at h
      subst h
      exact inv_colourBranch hinv
    · rcases hpi : jsParseInt (strLower (strTrim tok)) with _ | n
      · simp only [] at h
        simp [hti, hco, hpi] at h
        by_cases hall : strLower (strTrim tok) = "all"
        · simp [hall] at h
          exact inv_allBranch h hinv
        · simp [hall] at h
          rcases hio : indexOfSub (strLower (strTrim tok)) " type" with _ | idx
          · simp [hio] at h
          · simp [hio] at h
            exact inv_typeBranch h hinv
      · simp only [] at h
        simp [hti, hco, hpi] at h
        by_cases hr : 0 < n ∧ n < 6
        · simp [hr] at h
          subst h
          exact inv_genBranch hinv
        · simp [hr] at h
          by_cases hall : strLower (strTrim tok) = "all"
          · simp [hall] at h
            exact inv_allBranch h hinv
          · simp [hall] at h
            rcases hio : indexOfSub (strLower (strTrim tok)) " type" with _ | idx
            · simp [hio] at h
            · simp [hio] at h
              exact inv_typeBranch h hinv

theorem inv_runTokens {dex : DexData} {b : Bool} {ts : List String} :
    ∀ {q q' : QueryState}, runTokens dex b q ts = Except.ok q' → Inv dex q → Inv dex q' := by
  induction ts with
  | nil =>
    intro q q' h hinv
    simp [runTokens] at h
    exact h ▸ hinv
  | cons t ts ih =>
    intro q q' h hinv
    unfold runTokens at h
    rcases hc : classifyToken dex b q t with e | q1
    · rw [hc] at h
      simp at h
    · rw [hc] at h
      simp only [] at h
      exact ih h (inv_classifyToken hc hinv)

theorem inv_init (dex : DexData) : Inv dex QueryState.init := by
  refine ⟨catOk_empty, catOk_empty, catOk_empty, catOk_empty, catOk_empty, catOk_empty, ?_, ?_⟩
  · simp [QueryState.init, kindsPopulated, Cat.empty]
  · intro m hm
    simp [QueryState.init, Cat.empty] at hm

theorem inv_runClassifier {dex : DexData} {b : Bool} {query : String} {q : QueryState}
    (h : runClassifier dex b query = Except.ok q) : Inv dex q := by
  unfold runClassifier at h
  rcases hr : runTokens dex b QueryState.init (splitComma query) with e | q1
  · rw [hr] at h
    simp at h
  · rw [hr] at h
    simp only [] at h
    by_cases hsa : q1.showAll = true ∧ q1.catCount = 0
    · simp [hsa.1, hsa.2] at h
    · have := inv_runTokens hr (inv_init dex)
      rcases hb : q1.showAll && (q1.catCount == 0) with _ | _
      · rw [hb] at h
        simp at h
        exact h ▸ this
      · rw [hb] at h
        simp at h

/-! ## Lemmas: evaluator membership -/

theorem mem_addUniq {α : Type} [DecidableEq α] {l : List α} {x y : α} :
    x ∈ addUniq l y ↔ x ∈ l ∨ x = y := by
  unfold addUniq
  by_cases hc : y ∈ l
  · rw [if_pos (by simpa using hc)]
    exact ⟨Or.inl, fun h => h.elim id fun e => e ▸ hc⟩
  · simp [hc]

theorem mem_foldl_addUniq {α : Type} [DecidableEq α] :
    ∀ (l acc : List α) (x : α), x ∈ l.foldl addUniq acc ↔ x ∈ acc ∨ x ∈ l := by
  intro l
  induction l with
  | nil => intro acc x; simp
  | cons y rest ih =>
    intro acc x
    simp only [List.foldl_cons]
    rw [ih, mem_addUniq]
    constructor
    · rintro ((h | rfl) | h)
      · exact Or.inl h
      · exact Or.inr (by simp)
      · exact Or.inr (by simp [h])
    · rintro (h | h)
      · exact Or.inl (Or.inl h)
      · rcases List.mem_cons.1 h with rfl | h'
        · exact Or.inl (Or.inr rfl)
        · exact Or.inr h'

theorem mem_copyList {l : List Species} {x : Species} : x ∈ copyList l ↔ x ∈ l := by
  unfold copyList
  rw [mem_foldl_addUniq]
  simp

theorem mem_foldl_filterAdd {p : Species → Bool} :
    ∀ (l acc : List Species) (x : Species),
      x ∈ l.foldl (fun acc sp => if p sp then addUniq acc sp else acc) acc ↔
        x ∈ acc ∨ (x ∈ l ∧ p x = true) := by
  intro l
  induction l with
  | nil => intro acc x; simp
  | cons sp rest ih =>
    intro acc x
    simp only [List.foldl_cons]
    by_cases hp : p sp = true
    · rw [if_pos hp, ih, mem_addUniq]
      constructor
      · rintro ((h | rfl) | h)
        · exact Or.inl h
        · exact Or.inr ⟨by simp, hp⟩
        · exact Or.inr ⟨by simp [h.1], h.2⟩
      · rintro (h | ⟨hm, hpx⟩)
        · exact Or.inl (Or.inl h)
        · rcases List.mem_cons.1 hm with rfl | hm'
          · exact Or.inl (Or.inr rfl)
          · exact Or.inr ⟨hm', hpx⟩
    · rw [if_neg hp, ih]
      constructor
      · rintro (h | h)
        · exact Or.inl h
        · exact Or.inr ⟨by simp [h.1], h.2⟩
      · rintro (h | ⟨hm, hpx⟩)
        · exact Or.inl h
        · rcases List.mem_cons.1 hm with rfl | hm'
          · exact absurd hpx hp
          · exact Or.inr ⟨hm', hpx⟩

theorem mem_filterAdd {p : Species → Bool} {l : List Species} {x : Species} :
    x ∈ filterAdd p l ↔ x ∈ l ∧ p x = true := by
  unfold filterAdd
  rw [mem_foldl_filterAdd]
  simp

theorem mem_initialSet {dex : DexData} {q : QueryState} {x : Species} :
    x ∈ initialSet dex q ↔
      x ∈ dex.pokedex ∧ x.tier ≠ "Illegal" ∧ (x.tier ≠ "CAP" ∨ jsIn "cap" q.tiers = true) := by
  unfold initialSet
  rw [mem_filterAdd]
  constructor
  · rintro ⟨hm, hc⟩
    simp only [Bool.and_eq_true, Bool.or_eq_true, bne_iff_ne] at hc
    exact ⟨hm, hc.1, hc.2.elim (fun h => Or.inl h) (fun h => Or.inr h)⟩
  · rintro ⟨hm, h1, h2⟩
    refine ⟨hm, ?_⟩
    simp only [Bool.and_eq_true, Bool.or_eq_true, bne_iff_ne]
    exact ⟨h1, h2.elim (fun h => Or.inl h) (fun h => Or.inr h)⟩

theorem mem_abilityFoldlInner {dex : DexData} {c : Cat String} {sp : Species} :
    ∀ (al : List String) (acc : List Species) (x : Species),
      x ∈ al.foldl (fun acc2 a => if jsIn (abilityKey dex a) c then addUniq acc2 sp else acc2) acc ↔
        x ∈ acc ∨ (x = sp ∧ ∃ a ∈ al, jsIn (abilityKey dex a) c = true) := by
  intro al
  induction al with
  | nil => intro acc x; simp
  | cons a rest ih =>
    intro acc x
    simp only [List.foldl_cons]
    by_cases ha : jsIn (abilityKey dex a) c = true
    · rw [if_pos ha, ih, mem_addUniq]
      constructor
      · rintro ((h | rfl) | h)
        · exact Or.inl h
        · exact Or.inr ⟨rfl, a, by simp, ha⟩
        · exact Or.inr ⟨h.1, h.2.choose, by simp [h.2.choose_spec.1], h.2.choose_spec.2⟩
      · rintro (h | ⟨rfl, b, hb, hbv⟩)
        · exact Or.inl (Or.inl h)
        · rcases List.mem_cons.1 hb with rfl | hb'
          · exact Or.inl (Or.inr rfl)
          · exact Or.inr ⟨rfl, b, hb', hbv⟩
    · rw [if_neg ha, ih]
      constructor
      · rintro (h | ⟨rfl, b, hb, hbv⟩)
        · exact Or.inl h
        · exact Or.inr ⟨rfl, b, by simp [hb], hbv⟩
      · rintro (h | ⟨rfl, b, hb, hbv⟩)
        · exact Or.inl h
        · rcases List.mem_cons.1 hb with rfl | hb'
          · exact absurd hbv ha
          · exact Or.inr ⟨rfl, b, hb', hbv⟩

theorem mem_abilityFilter {dex : DexData} {c : Cat String} :
    ∀ (l : List Species) (x : Species),
      x ∈ abilityFilter dex c l ↔
        x ∈ l ∧ (x.abilities.any fun a => jsIn (abilityKey dex a) c) = true := by
  have aux : ∀ (l acc : List Species) (x : Species),
      x ∈ l.foldl (fun acc sp =>
        sp.abilities.foldl
          (fun acc2 a => if jsIn (abilityKey dex a) c then addUniq acc2 sp else acc2) acc) acc ↔
        x ∈ acc ∨ (x ∈ l ∧ ∃ a ∈ x.abilities, jsIn (abilityKey dex a) c = true) := by
    intro l
    induction l with
    | nil => intro acc x; simp
    | cons sp rest ih =>
      intro acc x
      simp only [List.foldl_cons]
      rw [ih]
      rw [mem_abilityFoldlInner]
      constructor
      · rintro ((h | ⟨rfl, hex⟩) | h)
        · exact Or.inl h
        · exact Or.inr ⟨by simp, hex⟩
        · exact Or.inr ⟨by simp [h.1], h.2⟩
      · rintro (h | ⟨hm, hex⟩)
        · exact Or.inl (Or.inl h)
        · rcases List.mem_cons.1 hm with rfl | hm'
          · exact Or.inl (Or.inr ⟨rfl, hex⟩)
          · exact Or.inr ⟨hm', hex⟩
  intro l x
  unfold abilityFilter
  rw [aux]
  simp [List.any_eq_true]

theorem monMoves_no_error {σ : Type} {dex : DexData}
    {ckl : String → Species → σ → Option String × σ} {t : Species} :
    ∀ (ms : List String) (s : σ), (∀ m ∈ ms, m ∈ dex.moves) →
      ∃ o, monMoves dex ckl t ms s = Except.ok o := by
  intro ms
  induction ms with
  | nil => intro s _; exact ⟨none, rfl⟩
  | cons m rest ih =>
    intro s h
    have hm : m ∈ dex.moves := h m (by simp)
    have hs := getMove_isSome_of_mem hm
    rcases hg : getMove dex m with _ | mv
    · rw [hg] at hs; simp at hs
    · rcases hck : ckl mv t s with ⟨po, s'⟩
      rcases po with _ | p
      · obtain ⟨o, ho⟩ := ih s' (fun x hx => h x (by simp [hx]))
        refine ⟨o, ?_⟩
        unfold monMoves
        simp only [hg, hck]
        exact ho
      · exact ⟨some p, by unfold monMoves; simp only [hg, hck]⟩

theorem movesFilter_ok {σ : Type} {dex : DexData}
    {ckl : String → Species → σ → Option String × σ} {s0 : σ} {members : List String}
    (hres : ∀ m ∈ members, m ∈ dex.moves) :
    ∀ (l acc : List Species), ∃ r, movesFilter dex ckl s0 members acc l = Except.ok r ∧
      ∀ x, x ∈ r ↔ x ∈ acc ∨
        (x ∈ l ∧ monMoves dex ckl (refetch dex x) members s0 = Except.ok none) := by
  intro l
  induction l with
  | nil =>
    intro acc
    exact ⟨acc, rfl, by simp⟩
  | cons sp rest ih =>
    intro acc
    obtain ⟨o, ho⟩ := @monMoves_no_error σ dex ckl (refetch dex sp) members s0 hres
    cases o
    case none =>
      obtain ⟨r, hr, hmem⟩ := ih (addUniq acc sp)
      refine ⟨r, ?_, ?_⟩
      · unfold movesFilter
        rw [ho]
        exact hr
      · intro x
        rw [hmem x, mem_addUniq]
        constructor
        · rintro ((h | rfl) | h)
          · exact Or.inl h
          · exact Or.inr ⟨by simp, ho⟩
          · exact Or.inr ⟨by simp [h.1], h.2⟩
        · rintro (h | ⟨hm, hmm⟩)
          · exact Or.inl (Or.inl h)
          · rcases List.mem_cons.1 hm with rfl | hm'
            · exact Or.inl (Or.inr rfl)
            · exact Or.inr ⟨hm', hmm⟩
    case some p =>
      obtain ⟨r, hr, hmem⟩ := ih acc
      refine ⟨r, ?_, ?_⟩
      · unfold movesFilter
        rw [ho]
        exact hr
      · intro x
        rw [hmem x]
        constructor
        · rintro (h | h)
          · exact Or.inl h
          · exact Or.inr ⟨by simp [h.1], h.2⟩
        · rintro (h | ⟨hm, hmm⟩)
          · exact Or.inl h
          · rcases List.mem_cons.1 hm with rfl | hm'
            · rw [ho] at hmm
              simp at hmm
            · exact Or.inr ⟨hm', hmm⟩

theorem kindsPopulated_zero {q : QueryState} (h : kindsPopulated q = 0) :
    q.types.count = 0 ∧ q.tiers.count = 0 ∧ q.ability.count = 0 ∧
    q.colours.count = 0 ∧ q.moves.count = 0 ∧ q.gens.count = 0 := by
  unfold kindsPopulated at h
  refine ⟨?_, ?_, ?_, ?_, ?_, ?_⟩
  · by_cases hc : q.types.count > 0
    · simp [hc] at h
    · omega
  · by_cases hc : q.tiers.count > 0
    · simp [hc] at h
    · omega
  · by_cases hc : q.ability.count > 0
    · simp [hc] at h
    · omega
  · by_cases hc : q.colours.count > 0
    · simp [hc] at h
    · omega
  · by_cases hc : q.moves.count > 0
    · simp [hc] at h
    · omega
  · by_cases hc : q.gens.count > 0
    · simp [hc] at h
    · omega

theorem evalLoop_sound {σ : Type} {dex : DexData}
    {ckl : String → Species → σ → Option String × σ} {s0 : σ} :
    ∀ (n : Nat) (q : QueryState) (ro : Option (List Species)),
      kindsPopulated q = n →
      (∀ m ∈ q.moves.members, m ∈ dex.moves) →
      (ro = none → 0 < n) →
      ∃ res, evalLoop dex ckl s0 n ro q = Except.ok res ∧
        ∀ x, x ∈ res ↔
          ((match ro with
            | none => x ∈ initialSet dex q
            | some l => x ∈ l) ∧ srcMatches dex ckl s0 q x) := by
  intro n
  induction n with
  | zero =>
    intro q ro hk hres hro
    obtain ⟨z1, z2, z3, z4, z5, z6⟩ := kindsPopulated_zero hk
    rcases ro with _ | l
    · exact absurd (hro rfl) (Nat.lt_irrefl 0)
    · refine ⟨l, rfl, ?_⟩
      intro x
      simp only [srcMatches, z1, z2, z3, z4, z5, z6]
      simp
  | succ n ih =>
    intro q ro hk hres hro
    obtain ⟨mv, ti, co, ab, ge, ty, sa, cc⟩ := q
    simp only [kindsPopulated] at hk
    have hstart : ∀ x, (x ∈ match ro with
        | none => initialSet dex ⟨mv, ti, co, ab, ge, ty, sa, cc⟩
        | some rs => copyList rs) ↔
        (match ro with
          | none => x ∈ initialSet dex ⟨mv, ti, co, ab, ge, ty, sa, cc⟩
          | some l => x ∈ l) := by
      intro x
      cases ro
      · simp
      · simpa using mem_copyList
    simp only [evalLoop]
    by_cases h1 : ty.count > 0
    · rw [if_pos h1]
      have hk' : kindsPopulated ⟨mv, ti, co, ab, ge, ty.zero, sa, cc⟩ = n := by
        simp only [kindsPopulated, Cat.zero] at hk ⊢
        simp [h1] at hk ⊢
        all_goals omega
      obtain ⟨res, heq, hmem⟩ := ih ⟨mv, ti, co, ab, ge, ty.zero, sa, cc⟩
        (some (filterAdd (matchType ty) _)) hk' hres (by simp)
      refine ⟨res, heq, ?_⟩
      intro x
      rw [hmem x]
      simp only [mem_filterAdd]
      rw [hstart x]
      unfold srcMatches
      simp only [Cat.zero, gt_iff_lt, Nat.lt_irrefl, false_implies, true_and, h1, true_implies]
      constructor
      · rintro ⟨⟨hs, hmt⟩, c2, c3, c4, c5, c6⟩
        exact ⟨hs, hmt, c2, c3, c4, c5, c6⟩
      · rintro ⟨hs, c1, c2, c3, c4, c5, c6⟩
        exact ⟨⟨hs, c1⟩, c2, c3, c4, c5, c6⟩
    · rw [if_neg h1]
      by_cases h2 : ti.count > 0
      · rw [if_pos h2]
        have hk' : kindsPopulated ⟨mv, ti.zero, co, ab, ge, ty, sa, cc⟩ = n := by
          simp only [kindsPopulated, Cat.zero] at hk ⊢
          simp [h1, h2] at hk ⊢
          all_goals omega
        obtain ⟨res, heq, hmem⟩ := ih ⟨mv, ti.zero, co, ab, ge, ty, sa, cc⟩
          (some (filterAdd (matchTier ti) _)) hk' hres (by simp)
        refine ⟨res, heq, ?_⟩
        intro x
        rw [hmem x]
        simp only [mem_filterAdd]
        rw [hstart x]
        unfold srcMatches
        simp only [Cat.zero, gt_iff_lt, Nat.lt_irrefl, false_implies, true_and, h2, true_implies]
        constructor
        · rintro ⟨⟨hs, hmt⟩, c1, c3, c4, c5, c6⟩
          exact ⟨hs, c1, hmt, c3, c4, c5, c6⟩
        · rintro ⟨hs, c1, c2, c3, c4, c5, c6⟩
          exact ⟨⟨hs, c2⟩, c1, c3, c4, c5, c6⟩
      · rw [if_neg h2]
        by_cases h3 : ab.count > 0
        · rw [if_pos h3]
          have hk' : kindsPopulated ⟨mv, ti, co, ab.zero, ge, ty, sa, cc⟩ = n := by
            simp only [kindsPopulated, Cat.zero] at hk ⊢
            simp [h1, h2, h3] at hk ⊢
            all_goals omega
          obtain ⟨res, heq, hmem⟩ := ih ⟨mv, ti, co, ab.zero, ge, ty, sa, cc⟩
            (some (abilityFilter dex ab _)) hk' hres (by simp)
          refine ⟨res, heq, ?_⟩
          intro x
          rw [hmem x]
          simp only [mem_abilityFilter]
          rw [hstart x]
          unfold srcMatches
          simp only [Cat.zero, gt_iff_lt, Nat.lt_irrefl, false_implies, true_and, h3, true_implies]
          constructor
          · rintro ⟨⟨hs, hmt⟩, c1, c2, c4, c5, c6⟩
            exact ⟨hs, c1, c2, hmt, c4, c5, c6⟩
          · rintro ⟨hs, c1, c2, c3, c4, c5, c6⟩
            exact ⟨⟨hs, c3⟩, c1, c2, c4, c5, c6⟩
        · rw [if_neg h3]
          by_cases h4 : co.count > 0
          · rw [if_pos h4]
            have hk' : kindsPopulated ⟨mv, ti, co.zero, ab, ge, ty, sa, cc⟩ = n := by
              simp only [kindsPopulated, Cat.zero] at hk ⊢
              simp [h1, h2, h3, h4] at hk ⊢
              all_goals omega
            obtain ⟨res, heq, hmem⟩ := ih ⟨mv, ti, co.zero, ab, ge, ty, sa, cc⟩
              (some (filterAdd (matchColour co) _)) hk' hres (by simp)
            refine ⟨res, heq, ?_⟩
            intro x
            rw [hmem x]
            simp only [mem_filterAdd]
            rw [hstart x]
            unfold srcMatches
            simp only [Cat.zero, gt_iff_lt, Nat.lt_irrefl, false_implies, true_and, h4,
              true_implies]
            constructor
            · rintro ⟨⟨hs, hmt⟩, c1, c2, c3, c5, c6⟩
              exact ⟨hs, c1, c2, c3, hmt, c5, c6⟩
            · rintro ⟨hs, c1, c2, c3, c4, c5, c6⟩
              exact ⟨⟨hs, c4⟩, c1, c2, c3, c5, c6⟩
          · rw [if_neg h4]
            by_cases h5 : mv.count > 0
            · rw [if_pos h5]
              obtain ⟨r, hr, hrmem⟩ := @movesFilter_ok σ dex ckl s0 _ hres
                (match ro with
                  | none => initialSet dex ⟨mv, ti, co, ab, ge, ty, sa, cc⟩
                  | some rs => copyList rs) []
              rw [hr]
              have hk' : kindsPopulated ⟨mv.zero, ti, co, ab, ge, ty, sa, cc⟩ = n := by
                simp only [kindsPopulated, Cat.zero] at hk ⊢
                simp [h1, h2, h3, h4, h5] at hk ⊢
                all_goals omega
              obtain ⟨res, heq, hmem⟩ := ih ⟨mv.zero, ti, co, ab, ge, ty, sa, cc⟩
                (some r) hk' (by simpa [Cat.zero] using hres) (by simp)
              refine ⟨res, heq, ?_⟩
              intro x
              rw [hmem x]
              simp only [hrmem]
              rw [hstart x]
              unfold srcMatches
              simp only [Cat.zero, gt_iff_lt, Nat.lt_irrefl, false_implies, true_and, h5,
                true_implies]
              constructor
              · rintro ⟨(hf | ⟨hs, hmm⟩), c1, c2, c3, c4, c6⟩
                · exact absurd hf (List.not_mem_nil x)
                · exact ⟨hs, c1, c2, c3, c4, hmm, c6⟩
              · rintro ⟨hs, c1, c2, c3, c4, c5, c6⟩
                exact ⟨Or.inr ⟨hs, c5⟩, c1, c2, c3, c4, c6⟩
            · rw [if_neg h5]
              by_cases h6 : ge.count > 0
              · rw [if_pos h6]
                have hk' : kindsPopulated ⟨mv, ti, co, ab, ge.zero, ty, sa, cc⟩ = n := by
                  simp only [kindsPopulated, Cat.zero] at hk ⊢
                  simp [h1, h2, h3, h4, h5, h6] at hk ⊢
                  all_goals omega
                obtain ⟨res, heq, hmem⟩ := ih ⟨mv, ti, co, ab, ge.zero, ty, sa, cc⟩
                  (some (filterAdd (matchGen ge) _)) hk' hres (by simp)
                refine ⟨res, heq, ?_⟩
                intro x
                rw [hmem x]
                simp only [mem_filterAdd]
                rw [hstart x]
                unfold srcMatches
                simp only [Cat.zero, gt_iff_lt, Nat.lt_irrefl, false_implies, true_and, and_true,
                  h6, true_implies]
                constructor
                · rintro ⟨⟨hs, hmt⟩, c1, c2, c3, c4, c5⟩
                  exact ⟨hs, c1, c2, c3, c4, c5, hmt⟩
                · rintro ⟨hs, c1, c2, c3, c4, c5, c6⟩
                  exact ⟨⟨hs, c6⟩, c1, c2, c3, c4, c5⟩
              · exfalso
                simp [h1, h2, h3, h4, h5, h6] at hk

theorem jsIn_eq_mem {k : String} {c : Cat String} (hk : k ≠ "count") :
    jsIn k c = true ↔ k ∈ c.members := by
  simp [jsIn, hk]

theorem matchTier_iff {c : Cat String} {sp : Species} (h : strLower sp.tier ≠ "count") :
    matchTier c sp = true ↔ strLower sp.tier ∈ c.members := by
  unfold matchTier
  exact jsIn_eq_mem h

theorem matchColour_iff {c : Cat String} {sp : Species} (h : strLower sp.color ≠ "count") :
    matchColour c sp = true ↔ strLower sp.color ∈ c.members := by
  unfold matchColour
  exact jsIn_eq_mem h

theorem matchGen_iff {c : Cat Nat} {sp : Species} :
    matchGen c sp = true ↔ sp.gen ∈ c.members := by
  simp [matchGen]

theorem anyAbility_iff {dex : DexData} {c : Cat String} {sp : Species}
    (h : ∀ a ∈ sp.abilities, ¬abilityKey dex a = "count") :
    (sp.abilities.any fun a => jsIn (abilityKey dex a) c) = true ↔
      ∃ a ∈ sp.abilities, abilityKey dex a ∈ c.members := by
  rw [List.any_eq_true]
  constructor
  · rintro ⟨a, ha, hv⟩
    exact ⟨a, ha, (jsIn_eq_mem (h a ha)).1 hv⟩
  · rintro ⟨a, ha, hv⟩
    exact ⟨a, ha, (jsIn_eq_mem (h a ha)).2 hv⟩

theorem srcMatches_iff {σ : Type} {dex : DexData}
    {ckl : String → Species → σ → Option String × σ} {s0 : σ} {q : QueryState} {x : Species}
    (hclean : CleanDex dex = true) (hx : x ∈ dex.pokedex) :
    srcMatches dex ckl s0 q x ↔ SatisfiesAll dex ckl s0 q x := by
  have hc := List.all_eq_true.1 hclean x hx
  simp only [Bool.and_eq_true, decide_eq_true_eq, List.all_eq_true] at hc
  obtain ⟨⟨ht, hcol⟩, hab⟩ := hc
  unfold srcMatches SatisfiesAll
  exact and_congr Iff.rfl (and_congr (imp_congr_right fun _ => matchTier_iff ht)
    (and_congr (imp_congr_right fun _ => anyAbility_iff hab)
      (and_congr (imp_congr_right fun _ => matchColour_iff hcol)
        (and_congr Iff.rfl (imp_congr_right fun _ => matchGen_iff)))))

/-- C1 (amended): for every valid (non-aborting) dexsearch query with
at least one populated category, the evaluator returns exactly the
subset of the catalog satisfying the AND of all populated categories
(OR within each category’s member set, with the noted type and move
special cases), starting from the catalog minus `Illegal` tiers and
minus `CAP` tiers unless `cap` was requested; a valid query whose
every token was silently dropped (zero populated categories) returns
the empty set instead. -/
theorem c1_eval_and_of_categories {σ : Type} (dex : DexData)
    (ckl : String → Species → σ → Option String × σ) (s0 : σ)
    (b : Bool) (query : String) (q : QueryState)
    (hok : runClassifier dex b query = Except.ok q)
    (hclean : CleanDex dex = true) :
    (0 < q.catCount →
      ∃ res, evalLoop dex ckl s0 q.catCount none q = Except.ok res ∧
        ∀ x, x ∈ res ↔
          (x ∈ dex.pokedex ∧ x.tier ≠ "Illegal" ∧
            (x.tier ≠ "CAP" ∨ "cap" ∈ q.tiers.members) ∧
            SatisfiesAll dex ckl s0 q x)) ∧
    (q.catCount = 0 → evalLoop dex ckl s0 q.catCount none q = Except.ok []) := by
  obtain ⟨imv, iti, ico, iab, ige, ity, icc, ires⟩ := inv_runClassifier hok
  constructor
  · intro hpos
    obtain ⟨res, heq, hmem⟩ :=
      @evalLoop_sound σ dex ckl s0 q.catCount q none icc.symm
        (fun m hm => ires m hm) (fun _ => hpos)
    refine ⟨res, heq, fun x => ?_⟩
    rw [hmem x]
    simp only []
    rw [mem_initialSet]
    constructor
    · rintro ⟨⟨hpx, hil, hcap⟩, hsm⟩
      refine ⟨hpx, hil, ?_, (srcMatches_iff hclean hpx).1 hsm⟩
      rcases hcap with h | h
      · exact Or.inl h
      · right
        simpa [jsIn] using h
    · rintro ⟨hpx, hil, hcap, hsat⟩
      refine ⟨⟨hpx, hil, ?_⟩, (srcMatches_iff hclean hpx).2 hsat⟩
      rcases hcap with h | h
      · exact Or.inl h
      · right
        simp [jsIn, h]
  · intro h0
    rw [h0]
    rfl


/-- C1 witness: the amended statement applied to the concrete query
`"fire type, ou"` on the concrete catalog. -/
theorem c1_eval_witness :
    runClassifier dexW false "fire type, ou" = Except.ok qW ∧ CleanDex dexW = true ∧
      ((0 < qW.catCount →
        ∃ res, evalLoop dexW cklW () qW.catCount none qW = Except.ok res ∧
          ∀ x, x ∈ res ↔
            (x ∈ dexW.pokedex ∧ x.tier ≠ "Illegal" ∧
              (x.tier ≠ "CAP" ∨ "cap" ∈ qW.tiers.members) ∧
              SatisfiesAll dexW cklW () qW x)) ∧
      (qW.catCount = 0 → evalLoop dexW cklW () qW.catCount none qW = Except.ok [])) :=
  ⟨rfl, by decide,
    c1_eval_and_of_categories dexW cklW () false "fire type, ou" qW rfl (by decide)⟩

/-- C1 counterexample: the query `"foo type"` does not abort (its one
token is silently dropped), leaves zero categories populated, and the
evaluator returns the empty set — yet Charizard satisfies the claim’s
formula (it is in the catalog, not `Illegal`, not `CAP`, and there is
no populated category to fail), so the result is not the claimed
subset. -/
theorem c1_counterexample :
    runClassifier dexW false "foo type" = Except.ok QueryState.init ∧
      evalLoop dexW cklW () QueryState.init.catCount none QueryState.init = Except.ok [] ∧
      (spW1 ∈ dexW.pokedex ∧ spW1.tier ≠ "Illegal" ∧
        (spW1.tier ≠ "CAP" ∨ "cap" ∈ QueryState.init.tiers.members) ∧
        SatisfiesAll dexW cklW () QueryState.init spW1) ∧
      spW1 ∉ ([] : List Species) := by
  refine ⟨rfl, rfl, ⟨by decide, by decide, Or.inl (by decide), ?_⟩, by decide⟩
  refine ⟨?_, ?_, ?_, ?_, ?_, ?_⟩ <;> (intro h; exact absurd h (by decide))

/-! ## C2: type category semantics -/

theorem pairIff {α : Type} {a b t1 t2 : α} (hab : a ≠ b) (h12 : t1 ≠ t2) :
    ((a = t1 ∨ a = t2) ∧ (b = t1 ∨ b = t2)) ↔ ((t1 = a ∨ t1 = b) ∧ (t2 = a ∨ t2 = b)) := by
  constructor
  · rintro ⟨(rfl | rfl), (rfl | rfl)⟩
    · exact absurd rfl hab
    · exact ⟨Or.inl rfl, Or.inr rfl⟩
    · exact ⟨Or.inr rfl, Or.inl rfl⟩
    · exact absurd rfl hab
  · rintro ⟨(rfl | rfl), (h2 | h2)⟩
    · exact absurd h2.symm h12
    · exact ⟨Or.inl rfl, Or.inr h2.symm⟩
    · exact ⟨Or.inr h2.symm, Or.inl rfl⟩
    · exact absurd h2.symm h12

/-- C2 (amended): with a well-formed type category — token count equal
to the number of distinct requested types — one requested type matches
a species iff either of its (up to two) type slots equals it, and two
distinct requested types match iff the species possesses both across
its two slots, order-independently (an AND of the two types); the
reading of “one/two types requested” must be the token count stored in
`count`, for duplicated type tokens make the code use the two-type
branch even though only one type was requested. -/
theorem c2_type_category (c : Cat String) (sp : Species) :
    (∀ t, c.members = [t] → c.count = 1 → t ≠ "count" → t ≠ "undefined" →
      "count" ∉ sp.types →
      (matchType c sp = true ↔ (sp.types.get? 0 = some t ∨ sp.types.get? 1 = some t))) ∧
    (∀ t1 t2, c.members = [t1, t2] → c.count = 2 → t1 ≠ t2 →
      t1 ≠ "count" → t2 ≠ "count" → t1 ≠ "undefined" → t2 ≠ "undefined" →
      sp.types.Nodup → sp.types.length ≤ 2 → "count" ∉ sp.types →
      (matchType c sp = true ↔ (t1 ∈ sp.types ∧ t2 ∈ sp.types))) := by
  constructor
  · intro t hm hc ht hu hcnt
    rcases hst : sp.types with _ | ⟨a, _ | ⟨b, rest⟩⟩
    · simp [matchType, jsIn, hm, hc, hst, typeSlotKey, Ne.symm hu, Ne.symm ht]
    · rw [hst] at hcnt
      simp only [List.mem_singleton] at hcnt
      have hca : a ≠ "count" := fun e => hcnt e.symm
      simp [matchType, jsIn, hm, hc, hst, typeSlotKey, Ne.symm hu, Ne.symm ht, hca]
    · rw [hst] at hcnt
      simp only [List.mem_cons, not_or] at hcnt
      have hca : a ≠ "count" := fun e => hcnt.1 e.symm
      have hcb : b ≠ "count" := fun e => hcnt.2.1 e.symm
      simp [matchType, jsIn, hm, hc, hst, typeSlotKey, Ne.symm hu, Ne.symm ht, hca, hcb]
  · intro t1 t2 hm hc h12 ht1 ht2 hu1 hu2 hnd hlen hcnt
    rcases hst : sp.types with _ | ⟨a, _ | ⟨b, _ | ⟨d, rest⟩⟩⟩
    · simp [matchType, jsIn, hm, hc, hst, typeSlotKey, Ne.symm hu1, Ne.symm hu2]
    · rw [hst] at hcnt
      simp only [List.mem_singleton] at hcnt
      have hca : a ≠ "count" := fun e => hcnt e.symm
      simp [matchType, jsIn, hm, hc, hst, typeSlotKey, Ne.symm hu1, Ne.symm hu2, hca]
      intro h1 h2
      exact absurd (h1.trans h2.symm) h12
    · rw [hst] at hcnt hnd
      simp only [List.mem_cons, not_or] at hcnt
      have hab : a ≠ b := by
        simp [List.nodup_cons] at hnd
        exact hnd
      have hca : a ≠ "count" := fun e => hcnt.1 e.symm
      have hcb : b ≠ "count" := fun e => hcnt.2.1 e.symm
      simp [matchType, jsIn, hm, hc, hst, typeSlotKey, hca, hcb]
      exact pairIff hab h12
    · rw [hst] at hlen
      simp at hlen

/-- C2 witness: one requested Fire matches the Fire/Flying species by
its first slot; requested Fire and Flying both match it across the two
slots. -/
theorem c2_type_category_witness :
    ((⟨["Fire"], 1⟩ : Cat String).members = ["Fire"] ∧
      matchType ⟨["Fire"], 1⟩ spW1 = true ∧
      (spW1.types.get? 0 = some "Fire" ∨ spW1.types.get? 1 = some "Fire")) ∧
    ((⟨["Fire", "Flying"], 2⟩ : Cat String).members = ["Fire", "Flying"] ∧
      matchType ⟨["Fire", "Flying"], 2⟩ spW1 = true ∧
      ("Fire" ∈ spW1.types ∧ "Flying" ∈ spW1.types)) :=
  ⟨⟨rfl, by decide,
      ((c2_type_category ⟨["Fire"], 1⟩ spW1).1 "Fire" rfl rfl (by decide) (by decide)
        (by decide)).1 (by decide)⟩,
    ⟨rfl, by decide,
      ((c2_type_category ⟨["Fire", "Flying"], 2⟩ spW1).2 "Fire" "Flying" rfl rfl (by decide)
        (by decide) (by decide) (by decide) (by decide) (by decide) (by decide)
        (by decide)).1 (by decide)⟩⟩

/-- C2 counterexample: after the query `"fire type, fire type"`
exactly one type (`Fire`) is requested — the member set is
`["Fire"]` — yet the Fire/Flying species does not match, because the
code branches on the token count (2) and demands both slots be
`Fire`. -/
theorem c2_counterexample :
    runClassifier dexW false "fire type, fire type" =
        Except.ok ⟨Cat.empty, Cat.empty, Cat.empty, Cat.empty, Cat.empty, ⟨["Fire"], 2⟩,
          false, 1⟩ ∧
      (⟨["Fire"], 2⟩ : Cat String).members = ["Fire"] ∧
      spW1.types.get? 0 = some "Fire" ∧
      matchType ⟨["Fire"], 2⟩ spW1 = false :=
  ⟨rfl, rfl, rfl, by decide⟩

/-! ## C10, C6, C7, C5: classifier behaviour -/

theorem self_mem_insert {α : Type} [DecidableEq α] (c : Cat α) (x : α) :
    x ∈ (c.insert x).members := by
  unfold Cat.insert
  by_cases hc : x ∈ c.members
  · simp [hc]
  · simp [hc]

/-- C10: a token that is not a move, ability, tier or colour and whose
leading numeric prefix parses to an integer strictly between 0 and 6
is classified as a Generation member of that value (the `parseInt`
call tolerates trailing non-digits), so it never reaches the
`all`/type steps or the unrecognized-token abort, and leaves the
`showAll` flag and the type category untouched. -/
theorem c10_numeric_prefix_gen (dex : DexData) (b : Bool) (q : QueryState) (tok : String)
    (n : Int)
    (hmv : getMove dex tok = none) (hab : getAbility dex tok = none)
    (hti : strLower (strTrim tok) ∉ allTiers) (hco : strLower (strTrim tok) ∉ allColours)
    (hpi : jsParseInt (strLower (strTrim tok)) = some n) (h0 : 0 < n) (h6 : n < 6) :
    classifyToken dex b q tok = Except.ok (genBranch q n) ∧
      n.toNat ∈ (genBranch q n).gens.members ∧
      (genBranch q n).showAll = q.showAll ∧ (genBranch q n).types = q.types := by
  obtain ⟨mv, ti, co, ab, ge, ty, sa, cc⟩ := q
  refine ⟨?_, ?_, ?_, ?_⟩
  · unfold classifyToken
    rw [hmv, hab]
    simp [hti, hco, hpi, h0, h6]
  · unfold genBranch
    by_cases hg : ge.count = 0 <;> simp [hg, self_mem_insert]
  · unfold genBranch
    by_cases hg : ge.count = 0 <;> simp [hg]
  · unfold genBranch
    by_cases hg : ge.count = 0 <;> simp [hg]

/-- C10 witness: the token `3x` (numeric prefix 3, trailing garbage)
becomes Generation 3. -/
theorem c10_numeric_prefix_gen_witness :
    getMove dexW "3x" = none ∧ jsParseInt (strLower (strTrim "3x")) = some 3 ∧
      classifyToken dexW false QueryState.init "3x" =
        Except.ok (genBranch QueryState.init 3) ∧
      (3 : Int).toNat ∈ (genBranch QueryState.init 3).gens.members :=
  ⟨rfl, rfl,
    (c10_numeric_prefix_gen dexW false QueryState.init "3x" 3 rfl rfl (by decide) (by decide)
      rfl (by decide) (by decide)).1,
    (c10_numeric_prefix_gen dexW false QueryState.init "3x" 3 rfl rfl (by decide) (by decide)
      rfl (by decide) (by decide)).2.1⟩

/-- C6: the 5th move token (one classifying as a move while
`moves.count` is already 4) aborts with the move-limit error; the 2nd
ability token aborts with the ability-limit error; the 3rd type token
aborts with the type-limit error; and `"all"` as the sole token (when
not broadcasting) aborts with the empty-query error. -/
theorem c6_cardinality_limits (dex : DexData) (b : Bool) (q : QueryState) (tok : String) :
    (∀ m, getMove dex tok = some m → q.moves.count = 4 →
      classifyToken dex b q tok = Except.error "Specify a maximum of 4 moves.") ∧
    (∀ a, getMove dex tok = none → getAbility dex tok = some a → q.ability.count = 1 →
      classifyToken dex b q tok = Except.error "Specify only one ability.") ∧
    (∀ idx, getMove dex tok = none → getAbility dex tok = none →
      strLower (strTrim tok) ∉ allTiers → strLower (strTrim tok) ∉ allColours →
      jsParseInt (strLower (strTrim tok)) = none →
      strLower (strTrim tok) ≠ "all" →
      indexOfSub (strLower (strTrim tok)) " type" = some idx →
      capBefore (strLower (strTrim tok)) idx ∈ dex.typechart →
      q.types.count = 2 →
      classifyToken dex b q tok = Except.error "Specify a maximum of two types.") ∧
    (getMove dex "all" = none → getAbility dex "all" = none →
      runClassifier dex false "all" =
        Except.error "No search parameters other than \"all\" were found.\nTry \"/help dexsearch\" for more information on this command.") := by
  refine ⟨?_, ?_, ?_, ?_⟩
  · intro m hm h4
    unfold classifyToken moveBranch
    rw [hm]
    simp [h4]
  · intro a hm ha h1
    unfold classifyToken abilityBranch
    rw [hm, ha]
    simp [h1]
  · intro idx hm ha hti hco hpi hall hio hcap h2
    unfold classifyToken typeBranch
    rw [hm, ha]
    simp [hti, hco, hpi, hall, hio, hcap, h2]
  · intro hm ha
    unfold runClassifier
    have hsp : splitComma "all" = ["all"] := rfl
    rw [hsp]
    unfold runTokens classifyToken allBranch
    rw [hm, ha]
    have hlit : strLower (strTrim "all") = "all" := rfl
    rw [hlit]
    simp [(by decide : ("all" : String) ∉ allTiers),
      (by decide : ("all" : String) ∉ allColours),
      (show jsParseInt "all" = none from rfl), runTokens]
    rfl

/-- C6 witness: five copies of `tackle`, two abilities, three types
and a lone `all` on the concrete catalog, each aborting with its
error. -/
theorem c6_cardinality_limits_witness :
    runClassifier dexW false "tackle, tackle, tackle, tackle, tackle" =
        Except.error "Specify a maximum of 4 moves." ∧
    runClassifier dexW false "blaze, torrent" = Except.error "Specify only one ability." ∧
    runClassifier dexW false "fire type, water type, flying type" =
        Except.error "Specify a maximum of two types." ∧
    runClassifier dexW false "all" =
        Except.error "No search parameters other than \"all\" were found.\nTry \"/help dexsearch\" for more information on this command." :=
  ⟨rfl, rfl, rfl, (c6_cardinality_limits dexW false QueryState.init "x").2.2.2 rfl rfl⟩

/-- C7 (amended): throughout accumulation each kind’s member keys stay
deduplicated and the kind’s count — which counts classified tokens —
is at least the number of distinct members and positive exactly when a
member exists; a duplicated token makes the count strictly exceed the
member count, because the JS object overloads one container as member
set and counter. -/
theorem c7_members_count (dex : DexData) (b : Bool) (ts : List String) (q : QueryState)
    (h : runTokens dex b QueryState.init ts = Except.ok q) :
    catOk q.moves ∧ catOk q.tiers ∧ catOk q.colours ∧ catOk q.ability ∧
      catOk q.gens ∧ catOk q.types := by
  obtain ⟨i1, i2, i3, i4, i5, i6, _, _⟩ := inv_runTokens h (inv_init dex)
  exact ⟨i1, i2, i3, i4, i5, i6⟩

/-- C7 witness: a clean two-token query on the concrete catalog
satisfies the book-keeping facts. -/
theorem c7_members_count_witness :
    runTokens dexW false QueryState.init ["tackle", " ou"] =
        Except.ok ⟨⟨["Tackle"], 1⟩, ⟨["ou"], 1⟩, Cat.empty, Cat.empty, Cat.empty, Cat.empty,
          false, 2⟩ ∧
      (catOk (⟨["Tackle"], 1⟩ : Cat String) ∧ catOk (⟨["ou"], 1⟩ : Cat String) ∧
        catOk (Cat.empty : Cat String) ∧ catOk (Cat.empty : Cat String) ∧
        catOk (Cat.empty : Cat Nat) ∧ catOk (Cat.empty : Cat String)) :=
  ⟨rfl, c7_members_count dexW false ["tackle", " ou"] _ rfl⟩

/-- C7 counterexample: the duplicated query `"tackle, tackle"`
classifies into one distinct move member but a count of 2 — the stored
count does not equal the size of the member set. -/
theorem c7_counterexample :
    runClassifier dexW false "tackle, tackle" =
        Except.ok ⟨⟨["Tackle"], 2⟩, Cat.empty, Cat.empty, Cat.empty, Cat.empty, Cat.empty,
          false, 1⟩ ∧
      (⟨["Tackle"], 2⟩ : Cat String).members.length = 1 ∧
      (⟨["Tackle"], 2⟩ : Cat String).count = 2 :=
  ⟨rfl, rfl, rfl⟩

/-- C5 (amended): each trimmed comma token is classified in the fixed
priority order — move lookup, ability lookup, tier keyword, colour
keyword, leading integer in [1,5] → generation, literal `all`,
‘ type’ SUBSTRING (not suffix) → type lookup — first match wins; a
token matching none of these aborts the whole query with an error
naming the token UNLESS it contains ‘ type’ with an unrecognized
type name, in which case it is silently dropped and classification
continues. -/
theorem c5_token_classification (dex : DexData) (b : Bool) (q : QueryState) (tok : String) :
    (∀ m, getMove dex tok = some m → classifyToken dex b q tok = moveBranch q m) ∧
    (∀ a, getMove dex tok = none → getAbility dex tok = some a →
      classifyToken dex b q tok = abilityBranch q a) ∧
    (getMove dex tok = none → getAbility dex tok = none →
      strLower (strTrim tok) ∈ allTiers →
      classifyToken dex b q tok = Except.ok (tierBranch q (strLower (strTrim tok)))) ∧
    (getMove dex tok = none → getAbility dex tok = none →
      strLower (strTrim tok) ∉ allTiers → strLower (strTrim tok) ∈ allColours →
      classifyToken dex b q tok = Except.ok (colourBranch q (strLower (strTrim tok)))) ∧
    (∀ n, getMove dex tok = none → getAbility dex tok = none →
      strLower (strTrim tok) ∉ allTiers → strLower (strTrim tok) ∉ allColours →
      jsParseInt (strLower (strTrim tok)) = some n → 0 < n → n < 6 →
      classifyToken dex b q tok = Except.ok (genBranch q n)) ∧
    (getMove dex tok = none → getAbility dex tok = none →
      strLower (strTrim tok) ∉ allTiers → strLower (strTrim tok) ∉ allColours →
      (jsParseInt (strLower (strTrim tok)) = none ∨
        ∃ n, jsParseInt (strLower (strTrim tok)) = some n ∧ ¬(0 < n ∧ n < 6)) →
      strLower (strTrim tok) = "all" →
      classifyToken dex b q tok = allBranch b q) ∧
    (∀ idx, getMove dex tok = none → getAbility dex tok = none →
      strLower (strTrim tok) ∉ allTiers → strLower (strTrim tok) ∉ allColours →
      (jsParseInt (strLower (strTrim tok)) = none ∨
        ∃ n, jsParseInt (strLower (strTrim tok)) = some n ∧ ¬(0 < n ∧ n < 6)) →
      strLower (strTrim tok) ≠ "all" →
      indexOfSub (strLower (strTrim tok)) " type" = some idx →
      classifyToken dex b q tok = typeBranch dex q (capBefore (strLower (strTrim tok)) idx)) ∧
    (∀ idx, getMove dex tok = none → getAbility dex tok = none →
      strLower (strTrim tok) ∉ allTiers → strLower (strTrim tok) ∉ allColours →
      (jsParseInt (strLower (strTrim tok)) = none ∨
        ∃ n, jsParseInt (strLower (strTrim tok)) = some n ∧ ¬(0 < n ∧ n < 6)) →
      strLower (strTrim tok) ≠ "all" →
      indexOfSub (strLower (strTrim tok)) " type" = some idx →
      capBefore (strLower (strTrim tok)) idx ∉ dex.typechart →
      classifyToken dex b q tok = Except.ok q) ∧
    (getMove dex tok = none → getAbility dex tok = none →
      strLower (strTrim tok) ∉ allTiers → strLower (strTrim tok) ∉ allColours →
      (jsParseInt (strLower (strTrim tok)) = none ∨
        ∃ n, jsParseInt (strLower (strTrim tok)) = some n ∧ ¬(0 < n ∧ n < 6)) →
      strLower (strTrim tok) ≠ "all" →
      indexOfSub (strLower (strTrim tok)) " type" = none →
      classifyToken dex b q tok = Except.error (unrecognizedMsg tok)) := by
  refine ⟨?_, ?_, ?_, ?_, ?_, ?_, ?_, ?_, ?_⟩
  · intro m hm
    unfold classifyToken
    rw [hm]
  · intro a hm ha
    unfold classifyToken
    rw [hm, ha]
  · intro hm ha hti
    unfold classifyToken
    rw [hm, ha]
    simp [hti]
  · intro hm ha hti hco
    unfold classifyToken
    rw [hm, ha]
    simp [hti, hco]
  · intro n hm ha hti hco hpi h0 h6
    unfold classifyToken
    rw [hm, ha]
    simp [hti, hco, hpi, h0, h6]
  · intro hm ha hti hco hpi hall
    unfold classifyToken
    rw [hm, ha]
    rw [hall] at hti hco
    rcases hpi with hpi | ⟨n, hpi, hr⟩
    · rw [hall] at hpi
      simp [hti, hco, hpi, hall]
    · rw [hall] at hpi
      simp [hti, hco, hpi, hall, hr]
  · intro idx hm ha hti hco hpi hall hio
    unfold classifyToken
    rw [hm, ha]
    rcases hpi with hpi | ⟨n, hpi, hr⟩
    · simp [hti, hco, hpi, hall, hio]
    · simp [hti, hco, hpi, hall, hio, hr]
  · intro idx hm ha hti hco hpi hall hio hcap
    unfold classifyToken typeBranch
    rw [hm, ha]
    rcases hpi with hpi | ⟨n, hpi, hr⟩
    · simp [hti, hco, hpi, hall, hio, hcap]
    · simp [hti, hco, hpi, hall, hio, hcap, hr]
  · intro hm ha hti hco hpi hall hio
    unfold classifyToken
    rw [hm, ha]
    rcases hpi with hpi | ⟨n, hpi, hr⟩
    · simp [hti, hco, hpi, hall, hio]
    · simp [hti, hco, hpi, hall, hio, hr]

/-- C5 witness: on the concrete catalog, `surf` classifies as a move
ahead of everything, `blaze` as an ability, and the unmatched token
`xyz` aborts with the error naming it. -/
theorem c5_token_classification_witness :
    classifyToken dexW false QueryState.init "surf" = moveBranch QueryState.init "Surf" ∧
    classifyToken dexW false QueryState.init "blaze" = abilityBranch QueryState.init "Blaze" ∧
    classifyToken dexW false QueryState.init "xyz" =
      Except.error (unrecognizedMsg "xyz") :=
  ⟨(c5_token_classification dexW false QueryState.init "surf").1 "Surf" rfl,
    (c5_token_classification dexW false QueryState.init "blaze").2.1 "Blaze" rfl rfl,
    (c5_token_classification dexW false QueryState.init "xyz").2.2.2.2.2.2.2.2 rfl rfl
      (by decide) (by decide) (Or.inl rfl) (by decide) rfl⟩

/-- C5 counterexample: the token `"foo type"` matches no category, yet
the query does not abort — the token is silently dropped and the
search replies “No Pokémon found.” instead of the unrecognized-token
error naming it. -/
theorem c5_counterexample :
    classifyToken dexW false QueryState.init "foo type" = Except.ok QueryState.init ∧
      dexsearch dexW cklW () false id "foo type" = "No Pokémon found." ∧
      dexsearch dexW cklW () false id "foo type" ≠ unrecognizedMsg "foo type" := by
  refine ⟨rfl, rfl, ?_⟩
  decide

/-! ## C4 and C8: formatter and display determinism -/

theorem formatResults_trunc (perm : List String → List String) (results : List Species)
    (hperm : ∀ l, List.Perm (perm l) l) (h10 : 10 < results.length) :
    formatResults false perm results =
      joinComma ((perm (results.map fun sp => sp.species)).take 10) ++
        moreTrailer (results.length - 10) ∧
    ((perm (results.map fun sp => sp.species)).take 10).length = 10 := by
  have hlen : (results.map fun sp => sp.species).length = results.length :=
    List.length_map _ _
  have hplen : (perm (results.map fun sp => sp.species)).length = results.length := by
    rw [(hperm _).length_eq, hlen]
  constructor
  · unfold formatResults
    rw [if_pos (by omega)]
    rw [if_neg (by simp; omega)]
    rw [hlen]
  · rw [List.length_take, hplen]
    omega

/-- C4: the result formatter renders every name comma-joined when the
`all` flag is set or at most 10 results exist; with more than 10
results and no `all` flag it renders exactly the first 10 names of the
permuted (sampled) name list plus the trailer reporting exactly
`|R| − 10` hidden results; and an empty result set gives the fixed
“No Pokémon found.” reply. -/
theorem c4_formatter (showAll : Bool) (perm : List String → List String)
    (results : List Species) (hperm : ∀ l, List.Perm (perm l) l) :
    (results.length = 0 → formatResults showAll perm results = "No Pokémon found.") ∧
    (0 < results.length → (showAll = true ∨ results.length ≤ 10) →
      formatResults showAll perm results = joinComma (results.map fun sp => sp.species)) ∧
    (showAll = false → 10 < results.length →
      formatResults showAll perm results =
        joinComma ((perm (results.map fun sp => sp.species)).take 10) ++
          moreTrailer (results.length - 10) ∧
      ((perm (results.map fun sp => sp.species)).take 10).length = 10) := by
  refine ⟨?_, ?_, ?_⟩
  · intro h0
    unfold formatResults
    rw [if_neg (by omega)]
  · intro hpos hsmall
    unfold formatResults
    rw [if_pos (by omega)]
    have hcond : (showAll || decide ((results.map fun sp => sp.species).length ≤ 10)) = true := by
      rcases hsmall with h | h
      · simp [h]
      · simp [h]
    rw [if_pos hcond]
  · intro hsa h10
    subst hsa
    exact formatResults_trunc perm results hperm h10


/-- C4 witness: 23 results without `all` render the first 10 sampled
names and report exactly 13 hidden; the empty set gives the fixed
message. -/
theorem c4_formatter_witness :
    resultsW.length = 23 ∧ resultsW.length - 10 = 13 ∧
    formatResults false id resultsW =
      joinComma ((id (resultsW.map fun sp => sp.species)).take 10) ++
        moreTrailer (resultsW.length - 10) ∧
    ((id (resultsW.map fun sp => sp.species)).take 10).length = 10 ∧
    formatResults false id ([] : List Species) = "No Pokémon found." :=
  ⟨by decide, by decide,
    ((c4_formatter false id resultsW fun l => List.Perm.refl l).2.2 rfl (by decide)).1,
    ((c4_formatter false id resultsW fun l => List.Perm.refl l).2.2 rfl (by decide)).2,
    (c4_formatter false id [] fun l => List.Perm.refl l).1 rfl⟩

/-- C8: a dexsearch reply factors through the deterministic core
(classifier plus evaluator), which does not consume the display
randomness; two evaluations of one query under any two sampling
permutations share the same underlying result set and, when the
truncating branch fires, the same hidden count in the trailer — only
the 10 sampled names may differ. -/
theorem c8_display_determinism {σ : Type} (dex : DexData)
    (ckl : String → Species → σ → Option String × σ) (s0 : σ) (b : Bool) (query : String)
    (p1 p2 : List String → List String)
    (hp1 : ∀ l, List.Perm (p1 l) l) (hp2 : ∀ l, List.Perm (p2 l) l)
    (hq : query ≠ "") :
    (dexsearch dex ckl s0 b p1 query = renderReply p1 (dexsearchCore dex ckl s0 b query) ∧
      dexsearch dex ckl s0 b p2 query = renderReply p2 (dexsearchCore dex ckl s0 b query)) ∧
    (∀ sa res, dexsearchCore dex ckl s0 b query = Except.ok (sa, res) →
      sa = false → 10 < res.length →
      ∃ shown1 shown2 : List String, shown1.length = 10 ∧ shown2.length = 10 ∧
        dexsearch dex ckl s0 b p1 query = joinComma shown1 ++ moreTrailer (res.length - 10) ∧
        dexsearch dex ckl s0 b p2 query = joinComma shown2 ++ moreTrailer (res.length - 10)) := by
  have hne : (query == "") = false := by simpa using hq
  have hfac : ∀ p : List String → List String,
      dexsearch dex ckl s0 b p query = renderReply p (dexsearchCore dex ckl s0 b query) := by
    intro p
    unfold dexsearch renderReply
    rw [hne]
    simp only [Bool.false_eq_true, if_false]
  refine ⟨⟨hfac p1, hfac p2⟩, ?_⟩
  intro sa res hcore hsa h10
  subst hsa
  obtain ⟨e1, l1⟩ := formatResults_trunc p1 res hp1 h10
  obtain ⟨e2, l2⟩ := formatResults_trunc p2 res hp2 h10
  refine ⟨(p1 (res.map fun sp => sp.species)).take 10,
    (p2 (res.map fun sp => sp.species)).take 10, l1, l2, ?_, ?_⟩
  · rw [hfac p1, hcore]
    unfold renderReply
    exact e1
  · rw [hfac p2, hcore]
    unfold renderReply
    exact e2

/-- C8 witness: the query `"1"` on the concrete catalog under two
different permutations (identity and reverse). -/
theorem c8_display_determinism_witness :
    dexsearch dexW cklW () false id "1" =
        renderReply id (dexsearchCore dexW cklW () false "1") ∧
      dexsearch dexW cklW () false (fun l => l.reverse) "1" =
        renderReply (fun l => l.reverse) (dexsearchCore dexW cklW () false "1") :=
  (c8_display_determinism dexW cklW () false "1" id (fun l => l.reverse)
    (fun l => List.Perm.refl l) (fun l => List.reverse_perm l) (by decide)).1

/-! ## C3: move category legality and unknown moves -/

/-- C3 (amended): a species passes the move category iff the external
legality engine reports it can learn every requested move (a single
unlearnable move excludes it regardless of the other categories);
every stored move member of a successfully classified query resolves
in the dataset, so the in-evaluation unknown-move abort can never
fire; and a token naming no move — and no other category, and without
a ‘ type’ substring — aborts the whole query during classification
with the unrecognized-token error naming it, before evaluation. -/
theorem c3_move_category {σ : Type} (dex : DexData)
    (ckl : String → Species → σ → Option String × σ) (s0 : σ) (b : Bool) (query : String)
    (q : QueryState) (tok : String) :
    (runClassifier dex b query = Except.ok q →
      ∀ m ∈ q.moves.members, (getMove dex m).isSome) ∧
    (∀ l : List Species, (∀ m ∈ q.moves.members, m ∈ dex.moves) →
      ∃ r, movesFilter dex ckl s0 q.moves.members [] l = Except.ok r ∧
        ∀ x, x ∈ r ↔ x ∈ l ∧
          monMoves dex ckl (refetch dex x) q.moves.members s0 = Except.ok none) ∧
    (getMove dex tok = none → getAbility dex tok = none →
      strLower (strTrim tok) ∉ allTiers → strLower (strTrim tok) ∉ allColours →
      jsParseInt (strLower (strTrim tok)) = none →
      strLower (strTrim tok) ≠ "all" →
      indexOfSub (strLower (strTrim tok)) " type" = none →
      classifyToken dex b q tok = Except.error (unrecognizedMsg tok)) := by
  refine ⟨?_, ?_, ?_⟩
  · intro hok m hm
    obtain ⟨_, _, _, _, _, _, _, ires⟩ := inv_runClassifier hok
    exact getMove_isSome_of_mem (ires m hm)
  · intro l hres
    obtain ⟨r, hr, hmem⟩ := @movesFilter_ok σ dex ckl s0 _ hres l []
    refine ⟨r, hr, fun x => ?_⟩
    rw [hmem x]
    simp
  · intro hm ha hti hco hpi hall hio
    unfold classifyToken
    rw [hm, ha]
    simp [hti, hco, hpi, hall, hio]


/-- C3 witness: on the concrete catalog, `surf, ou` stores the
resolving member `Surf`; filtering the catalog by the move `Surf`
keeps exactly the species the engine lets learn it (Squirtle); and
the token `notamove` aborts classification with the error naming
it. -/
theorem c3_move_category_witness :
    (getMove dexW "Surf").isSome ∧
    movesFilter dexW cklW () ["Surf"] [] dexW.pokedex = Except.ok [spW2] ∧
    monMoves dexW cklW (refetch dexW spW2) ["Surf"] () = Except.ok none ∧
    classifyToken dexW false qSurf "notamove" = Except.error (unrecognizedMsg "notamove") :=
  ⟨(c3_move_category dexW cklW () false "surf, ou" qSurf "notamove").1 rfl "Surf"
      (by decide),
    rfl, rfl,
    (c3_move_category dexW cklW () false "surf, ou" qSurf "notamove").2.2 rfl rfl
      (by decide) (by decide) rfl (by decide) rfl⟩

/-- C3 counterexample: the query `"tackle, notamove"` (a valid move
plus a nonexistent move name) aborts with the classifier’s
unrecognized-token error, not with the `"is not a known move"` lookup
error the claim describes. -/
theorem c3_counterexample :
    dexsearch dexW cklW () false id "tackle, notamove" =
        "\"notamove\" could not be found in any of the search categories." ∧
      dexsearch dexW cklW () false id "tackle, notamove" ≠
        "\"notamove\" is not a known move." := by
  refine ⟨rfl, ?_⟩
  decide

/-! ## C9: learn command lemmas -/

theorem sourceStep_factor (all : Bool) (tpl : Species) (b1 : String) (st : SrcState)
    (s : String) :
    sourceStep all tpl ⟨b1 ++ st.buffer, st.prevType, st.prevCount⟩ s =
      ⟨b1 ++ (sourceStep all tpl st s).buffer, (sourceStep all tpl st s).prevType,
        (sourceStep all tpl st s).prevCount⟩ := by
  obtain ⟨buf, pt, pc⟩ := st
  unfold sourceStep
  dsimp only
  split_ifs <;> simp [String.append_assoc]

theorem sourceFold_factor (all : Bool) (tpl : Species) :
    ∀ (srcs : List String) (b1 : String) (st : SrcState),
      List.foldl (sourceStep all tpl) ⟨b1 ++ st.buffer, st.prevType, st.prevCount⟩ srcs =
        ⟨b1 ++ (List.foldl (sourceStep all tpl) st srcs).buffer,
          (List.foldl (sourceStep all tpl) st srcs).prevType,
          (List.foldl (sourceStep all tpl) st srcs).prevCount⟩ := by
  intro srcs
  induction srcs with
  | nil => intro b1 st; rfl
  | cons s rest ih =>
    intro b1 st
    simp only [List.foldl_cons]
    rw [sourceStep_factor]
    exact ih b1 (sourceStep all tpl st s)

theorem sourceStep_cont (all : Bool) (tpl : Species) (p buffer : String) (c : Int)
    (s : String) (hs : strTake s 2 = p) :
    sourceStep all tpl ⟨buffer, some p, c⟩ s =
      ⟨buffer ++ (if c < 0 then ": " ++ strDrop s 2
        else if (all || decide (c < 3)) = true then ", " ++ strDrop s 2
        else if (c == 3) = true then ", ..." else ""), some p, c + 1⟩ := by
  unfold sourceStep
  dsimp only
  rw [hs]
  simp only [beq_self_eq_true, if_true]
  split_ifs <;> simp [String.append_assoc]

theorem sourceFold_cont (all : Bool) (tpl : Species) (p : String) :
    ∀ (srcs : List String) (buffer : String) (c : Int),
      (∀ s ∈ srcs, strTake s 2 = p) →
      List.foldl (sourceStep all tpl) ⟨buffer, some p, c⟩ srcs =
        ⟨buffer ++ contRender all c (srcs.map fun s => strDrop s 2), some p,
          c + srcs.length⟩ := by
  intro srcs
  induction srcs with
  | nil =>
    intro buffer c _
    simp [contRender]
  | cons s rest ih =>
    intro buffer c hall
    have hs : strTake s 2 = p := hall s (by simp)
    simp only [List.foldl_cons]
    rw [sourceStep_cont all tpl p buffer c s hs]
    rw [ih _ (c + 1) (fun x hx => hall x (by simp [hx]))]
    simp only [List.map_cons, List.length_cons, contRender]
    simp only [SrcState.mk.injEq]
    refine ⟨by rw [String.append_assoc], trivial, by push_cast; omega⟩

theorem contRender_done : ∀ (l : List String) (c : Int), 3 < c →
    contRender false c l = "" := by
  intro l
  induction l with
  | nil => intro c _; rfl
  | cons d rest ih =>
    intro c h
    unfold contRender
    have h1 : ¬c < 0 := by omega
    have h2 : (false || decide (c < 3)) = false := by
      simp
      omega
    have h3 : (c == 3) = false := by
      simp
      omega
    rw [if_neg h1]
    rw [h2]
    simp only [Bool.false_eq_true, if_false]
    rw [h3]
    simp only [Bool.false_eq_true, if_false]
    rw [ih (c + 1) (by omega)]
    rfl

theorem contRender_trunc : ∀ details : List String,
    contRender false 0 details =
      commaJoinAll (details.take 3) ++ (if 3 < details.length then ", ..." else "") := by
  intro details
  rcases details with _ | ⟨d1, _ | ⟨d2, _ | ⟨d3, _ | ⟨d4, rest⟩⟩⟩⟩
  · rfl
  · simp [contRender, commaJoinAll, String.append_assoc]
  · simp [contRender, commaJoinAll, String.append_assoc]
  · simp [contRender, commaJoinAll, String.append_assoc]
  · rw [show (d1 :: d2 :: d3 :: d4 :: rest).take 3 = [d1, d2, d3] from rfl]
    have hlen : 3 < (d1 :: d2 :: d3 :: d4 :: rest).length := by simp
    rw [if_pos hlen]
    simp only [contRender]
    norm_num
    rw [contRender_done rest 4 (by omega)]
    simp [commaJoinAll, String.append_assoc]

theorem contRender_allmode : ∀ (details : List String) (c : Int), 0 ≤ c →
    contRender true c details = commaJoinAll details := by
  intro details
  induction details with
  | nil => intro c _; rfl
  | cons d rest ih =>
    intro c hc
    unfold contRender
    rw [if_neg (by omega)]
    simp only [Bool.true_or, if_true]
    rw [ih (c + 1) (by omega)]
    simp [commaJoinAll, String.append_assoc]

/-- The fold over one uniform run starting from a fresh state: the
run’s header, its first detail, and the continuation rendering. -/
theorem sourceFold_run (all : Bool) (tpl : Species) (p : String) (s1 : String)
    (srest : List String) (buffer : String)
    (h1 : strTake s1 2 = p) (hd1 : strDrop s1 2 ≠ "")
    (hall : ∀ s ∈ srest, strTake s 2 = p) :
    List.foldl (sourceStep all tpl) ⟨buffer, none, 0⟩ (s1 :: srest) =
      ⟨buffer ++ "<li>gen " ++ strTake s1 1 ++ " " ++ methodName (strTake (strDrop s1 1) 1) ++
        (if (p == "5E" && tpl.maleOnlyHidden) = true then " (cannot have hidden ability)"
          else "") ++ ": " ++ strDrop s1 2 ++
        contRender all 0 (srest.map fun s => strDrop s 2),
        some p, srest.length⟩ := by
  simp only [List.foldl_cons]
  have hstep : sourceStep all tpl ⟨buffer, none, 0⟩ s1 =
      ⟨buffer ++ "<li>gen " ++ strTake s1 1 ++ " " ++ methodName (strTake (strDrop s1 1) 1) ++
        (if (p == "5E" && tpl.maleOnlyHidden) = true then " (cannot have hidden ability)"
          else "") ++ ": " ++ strDrop s1 2, some p, 0⟩ := by
    unfold sourceStep
    dsimp only
    rw [h1]
    simp only [if_pos hd1, if_neg hd1]
    have hne : ((none : Option String) == some p) = false := rfl
    rw [hne]
    simp only [Bool.false_eq_true, if_false]
    by_cases h5 : (p == "5E" && tpl.maleOnlyHidden) = true
    · rw [if_pos h5, if_pos h5]
    · rw [if_neg h5, if_neg h5]
      simp [String.append_assoc]
  rw [hstep]
  rw [sourceFold_cont all tpl p srest _ 0 hall]
  simp only [SrcState.mk.injEq]
  refine ⟨by simp [String.append_assoc], trivial, by omega⟩

theorem learnLoop_stop_problem {dex : DexData}
    {ckl : String → Species → LsetData → Option String × LsetData} {t : Species} :
    ∀ (ms rest : List String) (s : LsetData) (p mv : String) (s' : LsetData),
      learnLoop dex ckl t ms s = Except.ok (some p, mv, s') →
      learnLoop dex ckl t (ms ++ rest) s = Except.ok (some p, mv, s') := by
  intro ms
  induction ms with
  | nil =>
    intro rest s p mv s' h
    simp [learnLoop] at h
  | cons m ms' ih =>
    intro rest s p mv s' h
    rw [List.cons_append]
    unfold learnLoop at h ⊢
    rcases hg : getMove dex m with _ | mvv
    · simp only [hg] at h
      simp at h
    · simp only [hg] at h ⊢
      rcases hck : ckl mvv t s with ⟨po, s0⟩
      simp only [hck] at h ⊢
      rcases po with _ | pp
      · rcases ms' with _ | ⟨x, xs⟩
        · simp at h
        · simp only [List.cons_append] at h ⊢
          exact ih rest s0 p mv s' h
      · simpa using h

theorem learnLoop_stop_error {dex : DexData}
    {ckl : String → Species → LsetData → Option String × LsetData} {t : Species} :
    ∀ (ms rest : List String) (s : LsetData) (e : String),
      learnLoop dex ckl t ms s = Except.error e →
      learnLoop dex ckl t (ms ++ rest) s = Except.error e := by
  intro ms
  induction ms with
  | nil =>
    intro rest s e h
    simp [learnLoop] at h
  | cons m ms' ih =>
    intro rest s e h
    rw [List.cons_append]
    unfold learnLoop at h ⊢
    rcases hg : getMove dex m with _ | mvv
    · simp only [hg] at h ⊢
      exact h
    · simp only [hg] at h ⊢
      rcases hck : ckl mvv t s with ⟨po, s0⟩
      simp only [hck] at h ⊢
      rcases po with _ | pp
      · rcases ms' with _ | ⟨x, xs⟩
        · simp at h
        · simp only [List.cons_append] at h ⊢
          exact ih rest s0 e h
      · simp at h

/-- C9 (amended): the learn command resolves and checks the requested
moves strictly in order, stopping at the first problem (later moves
are never consulted); an unknown species or move name aborts with the
error naming its id; an illegal move produces the cannot-learn reply
naming the single move when exactly one was queried and the fixed
phrase “these moves” when more than one (move names are never
joined); when every move is legal the reply is the can-learn phrase
followed by the source enumeration, in which a uniform
generation/method run renders its header, first detail and at most 3
comma continuations, then an ellipsis when more remain — unless the
exhaustive `learnall` mode renders every continuation without
ellipsis. -/
theorem c9_learn (dex : DexData)
    (ckl : String → Species → LsetData → Option String × LsetData)
    (all : Bool) (target : String) (tpl : Species) :
    (target ≠ "" → getTemplate dex ((splitComma target).headD "") = none →
      learn dex ckl all target =
        "Pokemon \"" ++ toId ((splitComma target).headD "") ++ "\" not found.") ∧
    (target ≠ "" → getTemplate dex ((splitComma target).headD "") = some tpl →
      (splitComma target).length < 2 →
      learn dex ckl all target = "You must specify at least one move.") ∧
    (∀ (ms rest : List String) (s : LsetData) (p mv : String) (s' : LsetData),
      learnLoop dex ckl tpl ms s = Except.ok (some p, mv, s') →
      learnLoop dex ckl tpl (ms ++ rest) s = Except.ok (some p, mv, s')) ∧
    (∀ (ms rest : List String) (s : LsetData) (e : String),
      learnLoop dex ckl tpl ms s = Except.error e →
      learnLoop dex ckl tpl (ms ++ rest) s = Except.error e) ∧
    (∀ (m : String) (ms : List String) (s : LsetData), getMove dex m = none →
      learnLoop dex ckl tpl (m :: ms) s =
        Except.error ("Move \"" ++ toId m ++ "\" not found.")) ∧
    (target ≠ "" → getTemplate dex ((splitComma target).headD "") = some tpl →
      ¬(splitComma target).length < 2 →
      (∀ e, learnLoop dex ckl tpl ((splitComma target).drop 1) lsetInit = Except.error e →
        learn dex ckl all target = e) ∧
      (∀ (p mv : String) (s' : LsetData),
        learnLoop dex ckl tpl ((splitComma target).drop 1) lsetInit =
          Except.ok (some p, mv, s') →
        learn dex ckl all target =
          tpl.name ++ " <span class=\"message-learn-cannotlearn\">can\x27t</span> learn " ++
            (if (splitComma target).length > 2 then "these moves" else mv)) ∧
      (∀ (mv : String) (s' : LsetData),
        learnLoop dex ckl tpl ((splitComma target).drop 1) lsetInit =
          Except.ok (none, mv, s') →
        learn dex ckl all target =
          tpl.name ++ " <span class=\"message-learn-canlearn\">can</span> learn " ++
            (if (splitComma target).length > 2 then "these moves" else mv) ++
            sourcesTail all tpl s')) ∧
    (∀ (p s1 : String) (srest : List String) (buffer : String),
      strTake s1 2 = p → strDrop s1 2 ≠ "" → (∀ s ∈ srest, strTake s 2 = p) →
      List.foldl (sourceStep false tpl) ⟨buffer, none, 0⟩ (s1 :: srest) =
        ⟨buffer ++ "<li>gen " ++ strTake s1 1 ++ " " ++
          methodName (strTake (strDrop s1 1) 1) ++
          (if (p == "5E" && tpl.maleOnlyHidden) = true then " (cannot have hidden ability)"
            else "") ++ ": " ++ strDrop s1 2 ++
          commaJoinAll ((srest.map fun s => strDrop s 2).take 3) ++
          (if 3 < srest.length then ", ..." else ""), some p, srest.length⟩) ∧
    (∀ (p s1 : String) (srest : List String) (buffer : String),
      strTake s1 2 = p → strDrop s1 2 ≠ "" → (∀ s ∈ srest, strTake s 2 = p) →
      List.foldl (sourceStep true tpl) ⟨buffer, none, 0⟩ (s1 :: srest) =
        ⟨buffer ++ "<li>gen " ++ strTake s1 1 ++ " " ++
          methodName (strTake (strDrop s1 1) 1) ++
          (if (p == "5E" && tpl.maleOnlyHidden) = true then " (cannot have hidden ability)"
            else "") ++ ": " ++ strDrop s1 2 ++
          commaJoinAll (srest.map fun s => strDrop s 2), some p, srest.length⟩) := by
  refine ⟨?_, ?_, ?_, ?_, ?_, ?_, ?_, ?_⟩
  · intro hne hT
    unfold learn
    rw [if_neg (by simpa using hne)]
    simp only [hT]
  · intro hne hT hlt
    unfold learn
    rw [if_neg (by simpa using hne)]
    simp only [hT]
    rw [if_pos hlt]
  · exact fun ms rest s p mv s' h => learnLoop_stop_problem ms rest s p mv s' h
  · exact fun ms rest s e h => learnLoop_stop_error ms rest s e h
  · intro m ms s hg
    unfold learnLoop
    simp only [hg]
  · intro hne hT hnl
    refine ⟨?_, ?_, ?_⟩
    · intro e hLL
      unfold learn
      rw [if_neg (by simpa using hne)]
      simp only [hT]
      rw [if_neg hnl]
      simp only [hLL]
    · intro p mv s' hLL
      unfold learn
      rw [if_neg (by simpa using hne)]
      simp only [hT]
      rw [if_neg hnl]
      simp only [hLL]
      simp
    · intro mv s' hLL
      unfold learn
      rw [if_neg (by simpa using hne)]
      simp only [hT]
      rw [if_neg hnl]
      simp only [hLL]
      simp only [Option.isSome_none, Bool.false_eq_true, if_false]
      obtain ⟨srcsOpt, sb⟩ := s'
      rcases srcsOpt with _ | srcs
      · by_cases hsb : sb = 0
        · subst hsb
          simp [sourcesTail, String.append_assoc]
        · simp [sourcesTail, hsb, String.append_assoc]
      · unfold sourcesTail renderSources
        simp only [Option.isSome_some, Bool.true_or, if_true, true_or]
        have hfac := sourceFold_factor all tpl (jsSort srcs)
          (tpl.name ++ " <span class=\"message-learn-canlearn\">can</span> learn " ++
            (if (splitComma target).length > 2 then "these moves" else mv))
          ⟨" only when obtained from:<ul class=\"message-learn-list\">", none, 0⟩
        simp only [String.append_assoc] at hfac
        by_cases hsb : sb = 0
        · subst hsb
          simp only [ne_eq, not_true_eq_false, Bool.false_eq_true, if_false, ite_false,
            not_true]
          simp [hfac, String.append_assoc]
        · simp only [ne_eq, hsb, not_false_eq_true, if_true]
          simp [hfac, hsb, String.append_assoc]
  · intro p s1 srest buffer h1 hd1 hall
    rw [sourceFold_run false tpl p s1 srest buffer h1 hd1 hall]
    rw [contRender_trunc]
    simp [String.append_assoc]
  · intro p s1 srest buffer h1 hd1 hall
    rw [sourceFold_run true tpl p s1 srest buffer h1 hd1 hall]
    rw [contRender_allmode _ 0 le_rfl]

/-- C9 witness: on the concrete catalog, an unknown species aborts
with the error naming its id; Charizard cannot learn `surf, tackle`
and the reply uses the fixed phrase; and a concrete uniform 5-tag run
renders its header, first detail, 3 continuations and the ellipsis. -/
theorem c9_learn_witness :
    (learn dexW cklL false "nomon, tackle" = "Pokemon \"nomon\" not found.") ∧
    (learn dexW cklL false "charizard, surf, tackle" =
      spW1.name ++ " <span class=\"message-learn-cannotlearn\">can\x27t</span> learn " ++
        (if (splitComma "charizard, surf, tackle").length > 2 then "these moves"
          else "Surf")) ∧
    (List.foldl (sourceStep false spW1) ⟨"", none, 0⟩ ["3Ea", "3Eb", "3Ec", "3Ed", "3Ee"] =
      ⟨"" ++ "<li>gen " ++ strTake "3Ea" 1 ++ " " ++
        methodName (strTake (strDrop "3Ea" 1) 1) ++
        (if (("3E" : String) == "5E" && spW1.maleOnlyHidden) = true then
          " (cannot have hidden ability)" else "") ++ ": " ++ strDrop "3Ea" 2 ++
        commaJoinAll (((["3Eb", "3Ec", "3Ed", "3Ee"] : List String).map
          fun s => strDrop s 2).take 3) ++
        (if 3 < (["3Eb", "3Ec", "3Ed", "3Ee"] : List String).length then ", ..." else ""),
        some "3E", 4⟩) :=
  ⟨(c9_learn dexW cklL false "nomon, tackle" spW1).1 (by decide) rfl,
    ((c9_learn dexW cklL false "charizard, surf, tackle" spW1).2.2.2.2.2.1 (by decide) rfl
      (by decide)).2.1 "cant" "Surf" lsetInit rfl,
    (c9_learn dexW cklL false "x" spW1).2.2.2.2.2.2.1 "3E" "3Ea"
      ["3Eb", "3Ec", "3Ed", "3Ee"] "" (by decide) (by decide) (by decide)⟩

/-- C9 counterexample: with two queried moves and the first illegal,
the reply is the fixed phrase “these moves” — the requested move names
are not joined into the reply (no occurrence of either name). -/
theorem c9_counterexample :
    learn dexW cklL false "charizard, surf, tackle" =
      "Charizard <span class=\"message-learn-cannotlearn\">can\x27t</span> learn these moves" ∧
    indexOfSub (learn dexW cklL false "charizard, surf, tackle") "Surf" = none ∧
    indexOfSub (learn dexW cklL false "charizard, surf, tackle") "surf" = none ∧
    indexOfSub (learn dexW cklL false "charizard, surf, tackle") "Tackle" = none ∧
    indexOfSub (learn dexW cklL false "charizard, surf, tackle") "tackle" = none :=
  ⟨rfl, rfl, rfl, rfl, rfl⟩

end Dex
